import Mathlib

/-!
Verification development for the domb-napari widget module (`_widget.py`).

The module is a set of napari GUI widgets; each widget body splits into a
synchronous phase (parameter capture and, for most widgets, input-shape
validation) and a `@thread_worker` function dispatched to a background
thread that performs the numeric work and yields `(array, name)` results.

Modelling conventions used throughout this file:
* pixel values are exact rationals (`ℚ`); the Python code computes in
  floating point, but every property verified here is arithmetic-exact
  and does not depend on rounding of floats;
* a 2-D frame is a `Img2D`: explicit height/width plus a total value
  function (mirroring a numpy array's shape plus indexing); reads outside
  the declared shape never occur in the modelled pipelines except where
  explicitly guarded;
* the time axis (and the channel axis of a 4-D stack) is a `List`, so that
  numpy slicing along axis 0/1 becomes `List.drop`/`List.take`/stride maps;
* fallible numpy operations (out-of-range channel indexing, python
  `raise`, reading an unassigned local) are modelled with `Except String`.
-/

set_option maxHeartbeats 1000000
set_option linter.unusedVariables false

/-! ### List utilities (numpy reductions on flattened data) -/

def insSorted {α : Type} [LinearOrder α] (x : α) : List α → List α
  | [] => [x]
  | y :: ys => if x ≤ y then x :: y :: ys else y :: insSorted x ys

/-- Ascending insertion sort; used to model `np.sort`-based reductions
(`np.percentile`, `np.unique`). -/
def sortAsc {α : Type} [LinearOrder α] (l : List α) : List α := l.foldr insSorted []

/-- `np.mean` of a 1-D sequence.  (`[]` gives `0/0 = 0` in `ℚ`; numpy would
produce `nan`.  No verified statement relies on the empty case.) -/
def listMeanQ (l : List ℚ) : ℚ := l.sum / (l.length : ℚ)

/-- `ndarray.min()` of a flattened sequence (default `0` on empty input,
where numpy raises). -/
def listMinQ (l : List ℚ) : ℚ := match l with | [] => 0 | x :: xs => xs.foldl min x

/-- `ndarray.max()` of a flattened sequence (default `0` on empty input). -/
def listMaxQ (l : List ℚ) : ℚ := match l with | [] => 0 | x :: xs => xs.foldl max x

/-- `np.percentile(l, p)` with the default linear interpolation:
position `h = (n-1)*p/100`, result `v⌊h⌋ + (h-⌊h⌋)(v⌊h⌋₊₁ - v⌊h⌋)` on the
sorted data. -/
def percentileQ (l : List ℚ) (p : ℚ) : ℚ :=
  let s := sortAsc l
  let h : ℚ := ((l.length : ℚ) - 1) * p / 100
  let i : ℕ := (max 0 h.floor).toNat
  let lo := s.getD i 0
  lo + (h - (i : ℚ)) * (s.getD (i + 1) 0 - lo)

/-! ### 2-D frames and stacks -/

/-- A 2-D numpy array of rationals: shape `(H, W)` plus indexing. -/
structure Img2D where
  H : Nat
  W : Nat
  val : Nat → Nat → ℚ

def emptyImg : Img2D := ⟨0, 0, fun _ _ => 0⟩

/-- Row-major enumeration of the coordinates of an `H × W` grid. -/
def coordsOf (H W : Nat) : List (Nat × Nat) :=
  (List.range H).flatMap (fun r => (List.range W).map (fun c => (r, c)))

/-- The flattened (row-major) list of values of a frame. -/
def valuesQ (g : Img2D) : List ℚ := (coordsOf g.H g.W).map (fun p => g.val p.1 p.2)

def gridMinQ (g : Img2D) : ℚ := listMinQ (valuesQ g)
def gridMaxQ (g : Img2D) : ℚ := listMaxQ (valuesQ g)

/-- `np.max(np.abs(g))`. -/
def gridMaxAbsQ (g : Img2D) : ℚ := listMaxQ ((valuesQ g).map (fun v => |v|))

/-- A 3-D stack: the time axis is a list of frames. -/
abbrev Img3D := List Img2D

/-- A 4-D stack, outer axis first: a list (axis 0) of lists (axis 1) of frames. -/
abbrev Img4D := List (List Img2D)

/-- `np.mean(stack, axis=0)` over a list of equal-shaped frames. -/
def frames_mean (fs : List Img2D) : Img2D :=
  ⟨(fs.headD emptyImg).H, (fs.headD emptyImg).W,
   fun r c => (fs.map (fun f => f.val r c)).sum / (fs.length : ℚ)⟩

/-- Pointwise subtraction (shapes are the left operand's, as numpy requires
equal shapes anyway). -/
def imgSub (a b : Img2D) : Img2D := ⟨a.H, a.W, fun r c => a.val r c - b.val r c⟩

/-- Pointwise multiplication. -/
def imgMul (a b : Img2D) : Img2D := ⟨a.H, a.W, fun r c => a.val r c * b.val r c⟩

/-- `(x - x.min()) / (x.max() - x.min())` over a whole frame. -/
def minmaxNorm (g : Img2D) : Img2D :=
  ⟨g.H, g.W, fun r c => (g.val r c - gridMinQ g) / (gridMaxQ g - gridMinQ g)⟩

/-- `np.max(stack, axis=0)`: pointwise maximum-intensity projection. -/
def maxProj (s : Img3D) : Img2D :=
  ⟨(s.headD emptyImg).H, (s.headD emptyImg).W,
   fun r c => listMaxQ (s.map (fun f => f.val r c))⟩

/-! ### Frame Differencer (`der_series` / `_der_series`)

For window position `i` the worker computes
`img_base = np.mean(ref_img[i:i+left_frames+1], axis=0)`,
`img_stim = np.mean(ref_img[i+left_frames+right_frames :
                           i+left_frames+right_frames+space_frames+1], axis=0)`,
`img_diff = img_stim - img_base`, optionally rescaled by the min-max
normalised mean of `(img_base, img_diff)`; `i` ranges over
`range(T - (left_frames + right_frames + space_frames))`. -/

def der_frame (ref : Img3D) (left_frames space_frames right_frames : Nat)
    (normalize_by_int : Bool) (i : Nat) : Img2D :=
  let img_base := frames_mean ((ref.drop i).take (left_frames + 1))
  let img_stim := frames_mean
    ((ref.drop (i + left_frames + right_frames)).take (space_frames + 1))
  let img_diff := imgSub img_stim img_base
  if normalize_by_int then
    imgMul img_diff (minmaxNorm (frames_mean [img_base, img_diff]))
  else img_diff

/-- The derived red-green series: one difference frame per window position.
(Python `range` of a negative argument is empty, matching `Nat` truncated
subtraction.) -/
def der_series_worker (ref : Img3D) (left_frames space_frames right_frames : Nat)
    (normalize_by_int : Bool) : Img3D :=
  (List.range (ref.length - (left_frames + right_frames + space_frames))).map
    (der_frame ref left_frames space_frames right_frames normalize_by_int)

/-- Optional `save_MIP` output: `np.max(der_img, axis=0)`. -/
def der_mip (ref : Img3D) (l s r : Nat) (n : Bool) : Img2D :=
  maxProj (der_series_worker ref l s r n)

/-! ### SEP Splitter (`split_sep` / `_split_sep`) -/

/-- `l[s::2]` for `s ∈ {0,1}` is `everyOther (l.drop s)`: every second
element starting from the head. -/
def everyOther {α : Type} : List α → List α
  | [] => []
  | [x] => [x]
  | x :: _ :: xs => x :: everyOther xs

def stride2 {α : Type} (s : Nat) (l : List α) : List α := everyOther (l.drop s)

/-- The `pH_1st_frame` GUI choice: only `'7.3'` and `'6.0'` are offered. -/
inductive PhOrder | ph73 | ph60
deriving DecidableEq

/-- `total_start_i`: 0 for pH 7.3 first, 1 for pH 6.0 first. -/
def total_start_i : PhOrder → Nat | .ph73 => 0 | .ph60 => 1

/-- `intra_start_i`: the complementary offset. -/
def intra_start_i : PhOrder → Nat | .ph73 => 1 | .ph60 => 0

/-- `total_img = sep_img[total_start_i::2,:,:]` (the `astype(float)`
conversion is the identity on exact rational pixel values). -/
def split_sep_total (ph : PhOrder) (img : Img3D) : Img3D :=
  stride2 (total_start_i ph) img

/-- `intra_img = sep_img[intra_start_i::2,:,:]`. -/
def split_sep_intra (ph : PhOrder) (img : Img3D) : Img3D :=
  stride2 (intra_start_i ph) img

/-- `projections_diff = lambda x: np.max(x, axis=0) - np.mean(x, axis=0)`. -/
def projections_diff (x : Img3D) : Img2D := imgSub (maxProj x) (frames_mean x)

/-- `surface_img = total_img - intra_img` (pointwise over the common frames;
numpy requires both sub-series to have equal length for this subtraction). -/
def split_sep_surface (ph : PhOrder) (img : Img3D) : Img3D :=
  (split_sep_total ph img).zipWith imgSub (split_sep_intra ph img)

/-! #### Length lemmas for the stride-2 split -/

theorem everyOther_length_le {α : Type} :
    ∀ (n : Nat) (l : List α), l.length ≤ n →
      (everyOther l).length = (l.length + 1) / 2 := by
  intro n
  induction n with
  | zero =>
    intro l h
    have : l = [] := List.eq_nil_of_length_eq_zero (Nat.le_zero.mp h)
    subst this
    simp [everyOther]
  | succ n ih =>
    intro l h
    match l with
    | [] => simp [everyOther]
    | [x] => simp [everyOther]
    | x :: y :: xs =>
      have hx : xs.length ≤ n := by
        simp only [List.length_cons] at h
        omega
      simp only [everyOther, List.length_cons, ih xs hx]
      omega

theorem everyOther_length {α : Type} (l : List α) :
    (everyOther l).length = (l.length + 1) / 2 :=
  everyOther_length_le l.length l le_rfl

/-- Claim C1: for every 3-D input of time length `T` and window parameters
`left`, `space`, `right`, `_der_series` produces a derived series of length
exactly `T - (left + space + right)` (truncated subtraction: Python's
`range` of a non-positive argument is empty); in particular `T = 20`,
`left = space = right = 1` gives 17 output frames. -/
theorem der_series_output_length :
    (∀ (ref : Img3D) (l s r : Nat) (n : Bool),
        (der_series_worker ref l s r n).length = ref.length - (l + s + r)) ∧
    (der_series_worker (List.replicate 20 emptyImg) 1 1 1 true).length = 17 := by
  constructor
  · intro ref l s r n
    simp only [der_series_worker, List.length_map, List.length_range]
    omega
  · simp only [der_series_worker, List.length_map, List.length_range,
      List.length_replicate]

/-- Claim C4: the SEP Splitter's total and intra sub-series lengths sum to
the input length (exactly, hence certainly within the claimed `± 1`): the
two stride-2 slices at offsets 0 and 1 together cover all `T` frames,
whichever pH order is selected. -/
theorem split_sep_length_partition (ph : PhOrder) (img : Img3D) :
    (split_sep_total ph img).length + (split_sep_intra ph img).length =
      img.length := by
  cases ph <;>
    simp only [split_sep_total, split_sep_intra, stride2, total_start_i,
      intra_start_i, everyOther_length, List.length_drop] <;>
    omega

/-- Claim C5: switching `pH_1st_frame` between `'7.3'` and `'6.0'` swaps
which frame parity becomes the total versus the intra sub-series. -/
theorem split_sep_ph_swap (img : Img3D) :
    split_sep_total .ph73 img = split_sep_intra .ph60 img ∧
    split_sep_intra .ph73 img = split_sep_total .ph60 img :=
  ⟨rfl, rfl⟩

/-! ### Channel Splitter (`split_channels` / `_split_channels`)

The widget body performs *no* validation before calling the
`@thread_worker`-decorated `_split_channels()`: the dimensionality check
and the frame-range length check both live inside the worker.  The outer
`Except` layer of `split_channels_widget` below is the synchronous phase
(it never fails), the inner one is the dispatched worker. -/

/-- Boolean mask frame (numpy bool array). -/
structure BImg2D where
  H : Nat
  W : Nat
  val : Nat → Nat → Bool

/-- Bounds-checked mask read: coordinates outside the array are not part of
the mask. -/
def BImg2D.get (m : BImg2D) (p : Nat × Nat) : Bool :=
  decide (p.1 < m.H) && decide (p.2 < m.W) && m.val p.1 p.2

/-- `np.mean(f, where=mask)`. -/
def maskedMean (f : Img2D) (m : BImg2D) : ℚ :=
  listMeanQ (((coordsOf f.H f.W).filter (fun p => m.get p)).map
    (fun p => f.val p.1 p.2))

/-- Index reflection for the `'reflect'` boundary mode of
`scipy.ndimage.median_filter` (`(d c b a | a b c d | d c b a)`):
fold the integer index into `[0, 2n)` and mirror the upper half. -/
def reflectIdx (n : Nat) (i : ℤ) : Nat :=
  if n = 0 then 0 else
  let m := i.emod (2 * n)
  if m < n then m.toNat else (2 * n - 1 - m).toNat

/-- `scipy.ndimage.median_filter(f, size=k)`: each output pixel is the rank
`k²/2` element (scipy's median is the rank filter with `rank = size // 2`)
of the sorted `k × k` reflected neighbourhood, whose window offsets run from
`-(k/2)` to `k - 1 - k/2`. -/
def medianFilter (k : Nat) (f : Img2D) : Img2D :=
  ⟨f.H, f.W, fun r c =>
    let vals := (List.range k).flatMap (fun i => (List.range k).map (fun j =>
        f.val (reflectIdx f.H ((r : ℤ) + i - (k / 2 : Nat)))
              (reflectIdx f.W ((c : ℤ) + j - (k / 2 : Nat)))))
    (sortAsc vals).getD ((k * k) / 2) 0⟩

/-- One frame of the background subtraction
`bc_p = lambda x: np.array([f - np.percentile(f, 0.5) for f in x]).clip(min=0)`. -/
def bgSubFrame (f : Img2D) : Img2D :=
  ⟨f.H, f.W, fun r c => max 0 (f.val r c - percentileQ (valuesQ f) (1 / 2))⟩

/-- First index of the (first) maximum of a rational list (`np.argmax`). -/
def idxOfMaxQAux : List ℚ → Nat → Nat → ℚ → Nat
  | [], _, bi, _ => bi
  | x :: xs, i, bi, bv =>
    if bv < x then idxOfMaxQAux xs (i + 1) i x else idxOfMaxQAux xs (i + 1) bi bv

def idxOfMaxQ : List ℚ → Nat
  | [] => 0
  | x :: xs => idxOfMaxQAux xs 1 0 x

/-- `skimage.filters.threshold_otsu` with its default 256-bin histogram:
maximise the between-class variance `w1·w2·(μ1 - μ2)²` over the 255 possible
split points and return the winning bin's centre.  A constant image returns
its single value. -/
def threshold_otsu (g : Img2D) : ℚ :=
  let vs := valuesQ g
  let lo := listMinQ vs
  let hi := listMaxQ vs
  if lo = hi then lo else
  let width := (hi - lo) / 256
  let center : Nat → ℚ := fun k => lo + width * ((k : ℚ) + 1 / 2)
  let cnt : Nat → ℚ := fun k =>
    ((vs.filter (fun v => decide (min (((v - lo) / width).floor.toNat) 255 = k))).length : ℚ)
  let s1 : Nat → ℚ := fun k => ((List.range (k + 1)).map (fun j => cnt j * center j)).sum
  let w1 : Nat → ℚ := fun k => ((List.range (k + 1)).map cnt).sum
  let w2 : Nat → ℚ := fun k => (((List.range 256).drop (k + 1)).map cnt).sum
  let s2 : Nat → ℚ := fun k =>
    (((List.range 256).drop (k + 1)).map (fun j => cnt j * center j)).sum
  let var12 := (List.range 255).map (fun k =>
    w1 k * w2 k * (s1 k / w1 k - s2 k / w2 k) ^ 2)
  center (idxOfMaxQ var12)

/-- Modelled from the spec: `masking.proc_mask` lives in the companion
`domb` package, not in this repository; the spec describes it as "a
foreground mask derived from mean-intensity Otsu thresholding". -/
def proc_mask (meanImg : Img2D) : BImg2D :=
  ⟨meanImg.H, meanImg.W, fun r c => decide (threshold_otsu meanImg < meanImg.val r c)⟩

/-- The `correction_method` GUI choice. -/
inductive CorrMethod | exp | bi_exp
deriving DecidableEq

/-- Modelled from the spec: `masking.pb_exp_correction` lives in the
companion `domb` package, not in this repository; the spec describes it as
"an external exponential/bi-exponential decay fit" used to correct
photobleaching over a foreground mask.  It is modelled as a per-frame gain
that flattens the masked mean trace (the mono and bi-exponential variants
differ only in the fitted gain, so both are modelled by the same
shape-preserving per-frame scaling). -/
def pb_exp_correction (s : Img3D) (mask : BImg2D) (_method : CorrMethod) : Img3D :=
  let base := maskedMean (s.headD emptyImg) mask
  s.map (fun f =>
    let gain := base / maskedMean f mask
    ⟨f.H, f.W, fun r c => f.val r c * gain⟩)

/-- The `stack_order` GUI choice. -/
inductive StackOrder | TCXY | CTXY
deriving DecidableEq

/-- A napari `Image` layer's backing array, of whichever dimensionality the
user selected (`img.data.ndim` is the constructor index). -/
inductive NDImage where
  | d1 (v : List ℚ)
  | d2 (g : Img2D)
  | d3 (s : Img3D)
  | d4 (s : Img4D)

def NDImage.ndim : NDImage → Nat
  | .d1 _ => 1 | .d2 _ => 2 | .d3 _ => 3 | .d4 _ => 4

/-- `_preprocessing(ch_img, ch_suffix)`: optional frame-range crop (raising
when `frames_range` does not have exactly 2 elements), optional per-frame
median filter, optional per-frame percentile background subtraction,
optional photobleaching correction. -/
def preprocess_channel (median_filter : Bool) (median_kernel : Nat)
    (background_substraction photobleaching_correction : Bool)
    (correction_method : CorrMethod) (drop_frames : Bool)
    (frames_range : List Nat) (ch : Img3D) : Except String Img3D :=
  let cropped : Except String Img3D :=
    if drop_frames then
      if frames_range.length = 2 then
        Except.ok ((ch.drop (frames_range.headD 0)).take
          (frames_range.getLastD 0 - frames_range.headD 0))
      else Except.error "List of indexes should has 2 elements!"
    else Except.ok ch
  cropped.map (fun ch1 =>
    let ch2 := if median_filter then ch1.map (medianFilter median_kernel) else ch1
    let ch3 := if background_substraction then ch2.map bgSubFrame else ch2
    if photobleaching_correction then
      pb_exp_correction ch3 (proc_mask (frames_mean ch3)) correction_method
    else ch3)

/-- `np.moveaxis(data, 0, 1)` on the outer two axes of a 4-D stack. -/
def transposeOuter (d : Img4D) : Img4D :=
  (List.range (d.headD []).length).map (fun t => d.map (fun row => row.getD t emptyImg))

/-- `input_img[:, i, :, :]`: numpy raises an `IndexError` when `i` is out of
range of axis 1. -/
def getCh (input : Img4D) (i : Nat) : Except String Img3D :=
  if input.all (fun t => decide (i < t.length)) then
    .ok (input.map (fun t => t.getD i emptyImg))
  else .error "IndexError: channel index out of range"

/-- `_split_channels()`: the dispatched worker.  For a 4-D input the channel
loop bound is `img.data.shape[1]` — the axis-1 length of the *original*
array (`(d.headD []).length`), not of the moveaxis-normalised `input_img`. -/
def split_channels_worker (img : NDImage) (stack_order : StackOrder)
    (median_filter : Bool) (median_kernel : Nat)
    (background_substraction photobleaching_correction : Bool)
    (correction_method : CorrMethod) (drop_frames : Bool)
    (frames_range : List Nat) : Except String (List Img3D) :=
  match img with
  | .d4 d =>
    let input_img := match stack_order with
      | .TCXY => d
      | .CTXY => transposeOuter d
    (List.range (d.headD []).length).mapM (fun i =>
      getCh input_img i >>= fun ch =>
        preprocess_channel median_filter median_kernel background_substraction
          photobleaching_correction correction_method drop_frames frames_range ch)
  | .d3 s =>
    (preprocess_channel median_filter median_kernel background_substraction
      photobleaching_correction correction_method drop_frames frames_range s).map
      (fun r => [r])
  | _ => .error "Input image should have 3 or 4 dimensions!"

/-- The synchronous body of `split_channels`: it defines the callbacks and
immediately calls the worker — there is no pre-dispatch validation, so the
outer (synchronous) `Except` never fails. -/
def split_channels_widget (img : NDImage) (stack_order : StackOrder)
    (median_filter : Bool) (median_kernel : Nat)
    (background_substraction photobleaching_correction : Bool)
    (correction_method : CorrMethod) (drop_frames : Bool)
    (frames_range : List Nat) : Except String (Except String (List Img3D)) :=
  .ok (split_channels_worker img stack_order median_filter median_kernel
    background_substraction photobleaching_correction correction_method
    drop_frames frames_range)

/-- Number of yielded output series, when the worker finishes without
raising. -/
def okCount (e : Except String (List Img3D)) : Option Nat :=
  match e with
  | .ok l => some l.length
  | .error _ => none

/-- A 1×1 frame of value 1, used in concrete test stacks. -/
def exG : Img2D := ⟨1, 1, fun _ _ => 1⟩

/-- A CTXY-ordered 4-D stack with 3 channels and 2 time frames
(numpy shape `(3, 2, 1, 1)`). -/
def exCTXY : Img4D := [[exG, exG], [exG, exG], [exG, exG]]

/-- Claim C2 (refuted — code bug): for a valid CTXY-ordered 4-D input with
3 channels and 2 time frames, the Channel Splitter yields 2 output series,
not one per channel: the channel loop iterates `range(img.data.shape[1])`,
which for CTXY order is the *time* length of the original array rather than
the channel count of the moveaxis-normalised stack (and for `T > C` the
same loop raises an `IndexError`). -/
theorem split_channels_ctxy_channel_miscount :
    okCount (split_channels_worker (.d4 exCTXY) .CTXY false 2 false false
      .exp false [0, 10]) = some 2 ∧ exCTXY.length = 3 := by
  constructor
  · decide
  · rfl

/-! ### Stack Aligner (`dw_registration` / `_dw_registration`)

The dipy `AffineRegistration().optimize` call and the resulting affine's
resampling `transform` are external library computations; they are
parameters of the embedding (`optimize`), so every verified statement holds
for whatever transform the library produces.  What the repository's code
contributes — and what is verified — is the wiring: one single transform,
computed from one time-averaged fixed/moving frame pair, is applied to
every frame of channels 0 and 2, while channels 1 and 3 pass through
unchanged (up to the input/output crops). -/

/-- A fitted 2-D affine transform: all that the worker uses of the dipy
object is its frame resampling `transform` method. -/
structure AffineMap2D where
  transform : Img2D → Img2D

/-- `g[a:y-a, a:x-a]` where `y, x` are the (caller-supplied) spatial sizes:
numpy slice semantics, so the result length on an axis of size `n` is
`min(y-a, n) - a` (truncated). -/
def crop2D (a y x : Nat) (g : Img2D) : Img2D :=
  ⟨min (y - a) g.H - a, min (x - a) g.W - a, fun r c => g.val (a + r) (a + c)⟩

/-- `stack[:, i, :, :]` of a time-major 4-D stack. -/
def chanOf (s : Img4D) (i : Nat) : Img3D := s.map (fun t => t.getD i emptyImg)

/-- `stack.shape[-2]`. -/
def stackSpatialH (s : Img4D) : Nat := ((s.headD []).headD emptyImg).H

/-- `stack.shape[-1]`. -/
def stackSpatialW (s : Img4D) : Nat := ((s.headD []).headD emptyImg).W

/-- The input crop: `offset_series[:,:,input_crop:y-input_crop,
input_crop:x-input_crop]` with `y, x = offset_series.shape[-2:]`,
applied only when `input_crop != 0`. -/
def dw_input_cropped (offset : Img4D) (input_crop : Nat) : Img4D :=
  if input_crop ≠ 0 then
    offset.map (fun t => t.map
      (crop2D input_crop (stackSpatialH offset) (stackSpatialW offset)))
  else offset

/-- The same crop applied to the 3-D reference stack (using the *offset*
stack's spatial sizes, exactly as the source does). -/
def dw_master_cropped (offset : Img4D) (master : Img3D) (input_crop : Nat) : Img3D :=
  if input_crop ≠ 0 then
    master.map (crop2D input_crop (stackSpatialH offset) (stackSpatialW offset))
  else master

/-- The single affine transform: fitted on `master_img[1]`/`master_img[0]`
when `use_reference_img` is set, otherwise on the time-averaged channels 3
(fixed) and 0 (moving) of the cropped offset stack. -/
def dw_affine (optimize : Img2D → Img2D → AffineMap2D) (offset : Img4D)
    (master : Img3D) (use_reference_img : Bool) (input_crop : Nat) : AffineMap2D :=
  let os := dw_input_cropped offset input_crop
  let mi := dw_master_cropped offset master input_crop
  let master_img_ref :=
    if use_reference_img then mi.getD 1 emptyImg else frames_mean (chanOf os 3)
  let master_img_offset :=
    if use_reference_img then mi.getD 0 emptyImg else frames_mean (chanOf os 0)
  optimize master_img_ref master_img_offset

/-- `np.stack((ch0_xform, offset_series[:,1], ch2_xform, offset_series[:,3]),
axis=1)`: the reassembled 4-D stack before the output crop. -/
def dw_xform (optimize : Img2D → Img2D → AffineMap2D) (offset : Img4D)
    (master : Img3D) (use_reference_img : Bool) (input_crop : Nat) : Img4D :=
  let os := dw_input_cropped offset input_crop
  let A := dw_affine optimize offset master use_reference_img input_crop
  (List.range os.length).map (fun t =>
    [A.transform ((chanOf os 0).getD t emptyImg),
     (chanOf os 1).getD t emptyImg,
     A.transform ((chanOf os 2).getD t emptyImg),
     (chanOf os 3).getD t emptyImg])

/-- The per-frame output crop (identity when `output_crop == 0`). -/
def dw_out_fun (output_crop : Nat) (xf : Img4D) : Img2D → Img2D :=
  if output_crop ≠ 0 then crop2D output_crop (stackSpatialH xf) (stackSpatialW xf)
  else id

/-- `_dw_registration()`: the dispatched worker (the final `astype` is the
identity on exact rational pixels). -/
def dw_registration_worker (optimize : Img2D → Img2D → AffineMap2D)
    (offset : Img4D) (master : Img3D) (use_reference_img : Bool)
    (input_crop output_crop : Nat) : Img4D :=
  let xf := dw_xform optimize offset master use_reference_img input_crop
  xf.map (fun t => t.map (dw_out_fun output_crop xf))

theorem range_map_getD {α β : Type} (l : List α) (d : α) (f : α → β) :
    (List.range l.length).map (fun t => f (l.getD t d)) = l.map f := by
  induction l with
  | nil => rfl
  | cons x xs ih =>
    rw [List.length_cons, List.range_succ_eq_map, List.map_cons, List.map_map]
    have h : ((fun t => f ((x :: xs).getD t d)) ∘ Nat.succ) =
        fun t => f (xs.getD t d) := rfl
    rw [h, ih]
    rfl

/-- Claim C8: for every 4-D input, one single affine transform — fitted on
one time-averaged fixed/moving frame pair — is applied to every frame of
channels 0 and 2 of the (input-cropped) stack, while every frame of
channels 1 and 3 passes through unchanged up to the input/output crops, in
a reassembled 4-D stack whose every time slice has exactly 4 channels. -/
theorem dw_registration_one_transform (optimize : Img2D → Img2D → AffineMap2D)
    (offset : Img4D) (master : Img3D) (use_reference_img : Bool)
    (input_crop output_crop : Nat) :
    (∀ t ∈ dw_registration_worker optimize offset master use_reference_img
        input_crop output_crop, t.length = 4) ∧
    chanOf (dw_registration_worker optimize offset master use_reference_img
        input_crop output_crop) 0 =
      (chanOf (dw_input_cropped offset input_crop) 0).map (fun f =>
        dw_out_fun output_crop
          (dw_xform optimize offset master use_reference_img input_crop)
          ((dw_affine optimize offset master use_reference_img input_crop).transform f)) ∧
    chanOf (dw_registration_worker optimize offset master use_reference_img
        input_crop output_crop) 1 =
      (chanOf (dw_input_cropped offset input_crop) 1).map
        (dw_out_fun output_crop
          (dw_xform optimize offset master use_reference_img input_crop)) ∧
    chanOf (dw_registration_worker optimize offset master use_reference_img
        input_crop output_crop) 2 =
      (chanOf (dw_input_cropped offset input_crop) 2).map (fun f =>
        dw_out_fun output_crop
          (dw_xform optimize offset master use_reference_img input_crop)
          ((dw_affine optimize offset master use_reference_img input_crop).transform f)) ∧
    chanOf (dw_registration_worker optimize offset master use_reference_img
        input_crop output_crop) 3 =
      (chanOf (dw_input_cropped offset input_crop) 3).map
        (dw_out_fun output_crop
          (dw_xform optimize offset master use_reference_img input_crop)) := by
  refine ⟨?_, ?_, ?_, ?_, ?_⟩
  · intro t ht
    simp only [dw_registration_worker, dw_xform, List.map_map, List.mem_map,
      List.mem_range] at ht
    obtain ⟨i, _, rfl⟩ := ht
    rfl
  all_goals
    rw [← range_map_getD (chanOf (dw_input_cropped offset input_crop) _) emptyImg]
    simp only [dw_registration_worker, dw_xform, chanOf, List.map_map,
      List.length_map]
    rfl

/-! ### Single-label Profile Extractor (`labels_profile_line`)

This widget has no `@thread_worker`: everything runs synchronously.  For
each label value in `np.unique(input_labels)[1:]` it builds the per-frame
region-mean trace, the ΔF/F0 trace `(trace - F0)/F0` with
`F0 = np.mean(trace[:ΔF_win])`, rounds (ΔF mode rounds to 4 decimals,
numpy's ties-to-even), optionally crops, and plots each profile whose
rounded trace satisfies `(min > -lim0) | (max < lim1)`. -/

/-- An integer label frame (napari `Labels` layer data). -/
structure LImg2D where
  H : Nat
  W : Nat
  val : Nat → Nat → Nat

/-- Flattened (row-major) values of a label frame. -/
def valuesL (g : LImg2D) : List Nat := (coordsOf g.H g.W).map (fun p => g.val p.1 p.2)

/-- `np.mean(f, axis=(1,2), where=region_mask)` for one frame: the mean of
the pixels whose label equals `n`. -/
def meanWhere (f : Img2D) (lab : LImg2D) (n : Nat) : ℚ :=
  listMeanQ (((coordsOf f.H f.W).filter (fun p => decide (lab.val p.1 p.2 = n))).map
    (fun p => f.val p.1 p.2))

/-- `one_prof`: the raw mean-intensity trace of label region `n`. -/
def region_trace (img : Img3D) (lab : LImg2D) (n : Nat) : List ℚ :=
  img.map (fun f => meanWhere f lab n)

/-- `one_prof_df = (one_prof - F_0)/F_0` with
`F_0 = np.mean(one_prof[:ΔF_win])`. -/
def dF_of (trace : List ℚ) (dF_win : Nat) : List ℚ :=
  let F_0 := listMeanQ (trace.take dF_win)
  trace.map (fun v => (v - F_0) / F_0)

/-- The ΔF/F0 trace of label region `n`. -/
def profile_dF (img : Img3D) (lab : LImg2D) (n dF_win : Nat) : List ℚ :=
  dF_of (region_trace img lab n) dF_win

/-- `np.unique(input_labels)[1:]`: sorted unique values with the smallest
one dropped (the code assumes the smallest is the 0 background). -/
def uniqueDropFirst (lab : LImg2D) : List Nat := ((sortAsc (valuesL lab)).dedup).drop 1

/-- All ΔF/F0 traces, in the loop's label order. -/
def labels_profile_dF_profiles (img : Img3D) (lab : LImg2D) (dF_win : Nat) :
    List (List ℚ) :=
  (uniqueDropFirst lab).map (fun n => profile_dF img lab n dF_win)

/-- `np.round` ties-to-even rounding to an integer. -/
def roundHalfEven (x : ℚ) : ℤ :=
  let f := x.floor
  let r := x - f
  if r < 1 / 2 then f else if 1 / 2 < r then f + 1 else if f % 2 = 0 then f else f + 1

/-- `np.round(x, decimals=4)`. -/
def round4 (x : ℚ) : ℚ := ((roundHalfEven (x * 10000) : ℚ)) / 10000

/-- The plotting condition of the ΔF/F0 branch:
`(profile_ROI.min() > -ΔF_aplitude_lim[0]) | (profile_ROI.max() <
ΔF_aplitude_lim[1])` — a profile is skipped only when *both* bounds fail. -/
def df_plot_decision (prof : List ℚ) (lim0 lim1 : ℚ) : Bool :=
  decide (-lim0 < listMinQ prof) || decide (listMaxQ prof < lim1)

/-- Which ROI profiles get plotted in ΔF/F0 mode: per profile, round to 4
decimals, optionally crop to `profiles_range`, then apply the amplitude
filter. -/
def labels_profile_plot_flags (img : Img3D) (lab : LImg2D) (dF_win : Nat)
    (lim0 lim1 : ℚ) (profiles_crop : Bool) (a b : Nat) : List Bool :=
  (labels_profile_dF_profiles img lab dF_win).map (fun prof =>
    df_plot_decision
      (if profiles_crop then ((prof.map round4).drop a).take (b - a)
       else prof.map round4)
      lim0 lim1)

theorem listMean_const (l : List ℚ) (c : ℚ) (h : ∀ x ∈ l, x = c) (hne : l ≠ []) :
    listMeanQ l = c := by
  have hsum : l.sum = l.length • c := List.sum_eq_card_nsmul l c h
  have hlen : (l.length : ℚ) ≠ 0 :=
    Nat.cast_ne_zero.mpr (List.length_pos.mpr hne).ne'
  rw [listMeanQ, hsum, nsmul_eq_mul, mul_div_cancel_left₀ c hlen]

/-- Claim C6: in `labels_profile_line`, the ΔF/F0 trace of every label
region is literally `(trace - mean(trace[:ΔF_win])) / mean(trace[:ΔF_win])`;
consequently, when the raw region trace is constant (of nonzero value `c`,
with a nonempty baseline window `ΔF_win ≥ 1`), the ΔF/F0 trace is exactly 0
at every time point. -/
theorem labels_profile_dF_const_zero (img : Img3D) (lab : LImg2D) (n dF_win : Nat)
    (c : ℚ) (hw : 1 ≤ dF_win) (hconst : ∀ x ∈ region_trace img lab n, x = c)
    (hc : c ≠ 0) :
    profile_dF img lab n dF_win = (region_trace img lab n).map (fun v =>
      (v - listMeanQ ((region_trace img lab n).take dF_win)) /
        listMeanQ ((region_trace img lab n).take dF_win)) ∧
    ∀ v ∈ profile_dF img lab n dF_win, v = 0 := by
  refine ⟨rfl, ?_⟩
  intro v hv
  rcases hemp : region_trace img lab n with _ | ⟨x, xs⟩
  · rw [profile_dF, dF_of, hemp] at hv
    simp at hv
  · have htake : (region_trace img lab n).take dF_win ≠ [] := by
      have hlp : 0 < ((region_trace img lab n).take dF_win).length := by
        rw [List.length_take, hemp]
        simp only [List.length_cons]
        omega
      exact List.ne_nil_of_length_pos hlp
    have hF0 : listMeanQ ((region_trace img lab n).take dF_win) = c :=
      listMean_const _ c (fun y hy => hconst y (List.mem_of_mem_take hy)) htake
    rw [profile_dF, dF_of] at hv
    simp only [List.mem_map] at hv
    obtain ⟨y, hy, rfl⟩ := hv
    rw [hconst y hy, hF0, sub_self, zero_div]

/-- A 1×1 frame of constant value 2. -/
def exPf : Img2D := ⟨1, 1, fun _ _ => 2⟩

/-- A two-frame constant stack. -/
def exImg3 : Img3D := [exPf, exPf]

/-- A 1×1 label frame whose single pixel carries label 1. -/
def exLab1 : LImg2D := ⟨1, 1, fun _ _ => 1⟩

theorem exTrace_const : ∀ x ∈ region_trace exImg3 exLab1 1, x = 2 := by
  intro x hx
  norm_num [region_trace, exImg3, exPf, exLab1, meanWhere, coordsOf, listMeanQ,
    List.range, List.range.loop] at hx
  exact hx

theorem labels_profile_dF_const_zero_w :
    (1 ≤ 1) ∧ (∀ x ∈ region_trace exImg3 exLab1 1, x = 2) ∧ ((2 : ℚ) ≠ 0) ∧
    ∀ v ∈ profile_dF exImg3 exLab1 1 1, v = 0 :=
  ⟨le_rfl, exTrace_const, by norm_num,
   (labels_profile_dF_const_zero exImg3 exLab1 1 1 2 le_rfl exTrace_const
     (by norm_num)).2⟩

/-- Claim C9: in the ΔF/F0 plotting mode of `labels_profile_line`, a
(nonempty) ROI profile is skipped exactly when *both* amplitude bounds are
violated — its minimum is `≤ -ΔF_aplitude_lim[0]` *and* its maximum is
`≥ ΔF_aplitude_lim[1]`; if either bound alone holds, the profile is
plotted.  The second conjunct ties the decision to the per-ROI rounded
(optionally cropped) ΔF/F0 profiles the widget iterates over. -/
theorem df_amplitude_filter_or :
    (∀ (prof : List ℚ) (lim0 lim1 : ℚ), prof ≠ [] →
      ((df_plot_decision prof lim0 lim1 = false ↔
        (listMinQ prof ≤ -lim0 ∧ lim1 ≤ listMaxQ prof)) ∧
      (-lim0 < listMinQ prof → df_plot_decision prof lim0 lim1 = true) ∧
      (listMaxQ prof < lim1 → df_plot_decision prof lim0 lim1 = true))) ∧
    (∀ (img : Img3D) (lab : LImg2D) (dF_win : Nat) (lim0 lim1 : ℚ)
        (profiles_crop : Bool) (a b : Nat),
      labels_profile_plot_flags img lab dF_win lim0 lim1 profiles_crop a b =
        (labels_profile_dF_profiles img lab dF_win).map (fun prof =>
          df_plot_decision
            (if profiles_crop then ((prof.map round4).drop a).take (b - a)
             else prof.map round4) lim0 lim1)) := by
  constructor
  · intro prof lim0 lim1 _
    refine ⟨?_, ?_, ?_⟩
    · simp [df_plot_decision, not_lt]
    · intro h
      simp [df_plot_decision, h]
    · intro h
      simp [df_plot_decision, h]
  · intro img lab dF_win lim0 lim1 profiles_crop a b
    rfl

theorem df_amplitude_filter_or_w :
    ((df_plot_decision [0] 1 1 = false ↔
        (listMinQ [0] ≤ -1 ∧ 1 ≤ listMaxQ [0])) ∧
      (-1 < listMinQ [0] → df_plot_decision [0] 1 1 = true) ∧
      (listMaxQ [0] < 1 → df_plot_decision [0] 1 1 = true)) :=
  df_amplitude_filter_or.1 [0] 1 1 (by decide)

/-! ### Connected-component labelling (`skimage.measure.label` /
`skimage.morphology.label`)

`measure.label` assigns consecutive integer labels `1..K` to the connected
components of a boolean mask (default connectivity for 2-D input is full
8-connectivity), with 0 for background.  It is embedded as a raster scan
that seeds a flood fill at every still-unlabelled foreground pixel, which
reproduces exactly the properties the widgets rely on: positive labels
cover the foreground, 0 covers exactly the background, and the set of
positive labels used is `{1..K}` with `K` the final label count. -/

def LImg2D.get (g : LImg2D) (p : Nat × Nat) : Nat := g.val p.1 p.2

def LImg2D.set (g : LImg2D) (p : Nat × Nat) (v : Nat) : LImg2D :=
  ⟨g.H, g.W, fun r c => if r = p.1 ∧ c = p.2 then v else g.val r c⟩

def zerosL (H W : Nat) : LImg2D := ⟨H, W, fun _ _ => 0⟩

/-- The 8-connected neighbourhood.  (`Nat` subtraction clamps at the
border, so some entries may repeat or point at the pixel itself; both are
inside the true neighbourhood window, and such entries are skipped by the
mask/label guards, so clamping is harmless.) -/
def neighbors8 (p : Nat × Nat) : List (Nat × Nat) :=
  [(p.1 - 1, p.2 - 1), (p.1 - 1, p.2), (p.1 - 1, p.2 + 1),
   (p.1, p.2 - 1), (p.1, p.2 + 1),
   (p.1 + 1, p.2 - 1), (p.1 + 1, p.2), (p.1 + 1, p.2 + 1)]

/-- The 4-connected (cross) neighbourhood. -/
def neighbors4 (p : Nat × Nat) : List (Nat × Nat) :=
  [(p.1 - 1, p.2), (p.1, p.2 - 1), (p.1, p.2 + 1), (p.1 + 1, p.2)]

/-- Fuelled worklist flood fill: label every reachable foreground pixel
that is still 0 with `lab`. -/
def flood (nbr : Nat × Nat → List (Nat × Nat)) (m : BImg2D) (lab : Nat) :
    Nat → List (Nat × Nat) → LImg2D → LImg2D
  | 0, _, g => g
  | _ + 1, [], g => g
  | fuel + 1, p :: rest, g =>
    if m.get p && (g.get p == 0)
    then flood nbr m lab fuel (nbr p ++ rest) (g.set p lab)
    else flood nbr m lab fuel rest g

theorem LImg2D.get_set (g : LImg2D) (p : Nat × Nat) (v : Nat) (q : Nat × Nat) :
    (g.set p v).get q = if q = p then v else g.get q := by
  by_cases h : q = p
  · subst h
    simp [LImg2D.set, LImg2D.get]
  · have hne : ¬(q.1 = p.1 ∧ q.2 = p.2) := fun hc => h (Prod.ext_iff.mpr hc)
    simp [LImg2D.set, LImg2D.get, hne, h]

theorem flood_dims (nbr : Nat × Nat → List (Nat × Nat)) (m : BImg2D) (lab : Nat) :
    ∀ (fuel : Nat) (wl : List (Nat × Nat)) (g : LImg2D),
      (flood nbr m lab fuel wl g).H = g.H ∧ (flood nbr m lab fuel wl g).W = g.W := by
  intro fuel
  induction fuel with
  | zero => intro wl g; exact ⟨rfl, rfl⟩
  | succ fuel ih =>
    intro wl g
    match wl with
    | [] => exact ⟨rfl, rfl⟩
    | p :: rest =>
      rw [flood]
      by_cases hc : (m.get p && (g.get p == 0)) = true
      · rw [if_pos hc]
        exact ih (nbr p ++ rest) (g.set p lab)
      · rw [if_neg hc]
        exact ih rest g

/-- Every cell is either untouched by the flood, or goes from 0 (on a
foreground pixel) to `lab`. -/
theorem flood_get_char (nbr : Nat × Nat → List (Nat × Nat)) (m : BImg2D)
    (lab : Nat) (hlab : lab ≠ 0) :
    ∀ (fuel : Nat) (wl : List (Nat × Nat)) (g : LImg2D) (q : Nat × Nat),
      (flood nbr m lab fuel wl g).get q = g.get q ∨
      (g.get q = 0 ∧ m.get q = true ∧ (flood nbr m lab fuel wl g).get q = lab) := by
  intro fuel
  induction fuel with
  | zero => intro wl g q; left; rfl
  | succ fuel ih =>
    intro wl g q
    match wl with
    | [] => left; rfl
    | p :: rest =>
      rw [flood]
      by_cases hc : (m.get p && (g.get p == 0)) = true
      · rw [if_pos hc]
        have hc' := hc
        simp only [Bool.and_eq_true] at hc'
        obtain ⟨hmp, hgpb⟩ := hc'
        have hgp : g.get p = 0 := by simpa using hgpb
        rcases ih (nbr p ++ rest) (g.set p lab) q with h | ⟨h0, hm, hl⟩
        · rw [h, LImg2D.get_set]
          by_cases hq : q = p
          · subst hq
            right
            exact ⟨hgp, hmp, by rw [if_pos rfl]⟩
          · left
            rw [if_neg hq]
        · rw [LImg2D.get_set] at h0
          by_cases hq : q = p
          · subst hq
            rw [if_pos rfl] at h0
            exact absurd h0 hlab
          · rw [if_neg hq] at h0
            right
            exact ⟨h0, hm, hl⟩
      · rw [if_neg hc]
        exact ih rest g q

theorem flood_preserve_nonzero (nbr : Nat × Nat → List (Nat × Nat)) (m : BImg2D)
    (lab : Nat) (hlab : lab ≠ 0) (fuel : Nat) (wl : List (Nat × Nat))
    (g : LImg2D) (q : Nat × Nat) (hq : g.get q ≠ 0) :
    (flood nbr m lab fuel wl g).get q = g.get q := by
  rcases flood_get_char nbr m lab hlab fuel wl g q with h | ⟨h0, _, _⟩
  · exact h
  · exact absurd h0 hq

/-- A seeded foreground pixel receives the label immediately (any nonzero
fuel suffices). -/
theorem flood_seed (nbr : Nat × Nat → List (Nat × Nat)) (m : BImg2D) (lab : Nat)
    (hlab : lab ≠ 0) (fuel : Nat) (hfuel : fuel ≠ 0) (p : Nat × Nat)
    (rest : List (Nat × Nat)) (g : LImg2D) (hm : m.get p = true)
    (hg : g.get p = 0) :
    (flood nbr m lab fuel (p :: rest) g).get p = lab := by
  obtain ⟨f, rfl⟩ := Nat.exists_eq_succ_of_ne_zero hfuel
  rw [flood]
  have hc : (m.get p && (g.get p == 0)) = true := by
    rw [hm, hg]
    rfl
  rw [if_pos hc]
  have hset : (g.set p lab).get p = lab := by
    rw [LImg2D.get_set, if_pos rfl]
  rcases flood_get_char nbr m lab hlab f (nbr p ++ rest) (g.set p lab) p with h | ⟨_, _, hl⟩
  · rw [h, hset]
  · exact hl

/-- The raster-scan wrapper of `measure.label`: seed a fresh label at every
still-unlabelled foreground pixel, in row-major order. -/
def cclGo (m : BImg2D) : List (Nat × Nat) → LImg2D × Nat → LImg2D × Nat
  | [], s => s
  | p :: ps, (g, n) =>
    if m.get p && (g.get p == 0) then
      cclGo m ps (flood neighbors8 m n ((m.H * m.W + 1) * 9) [p] g, n + 1)
    else cclGo m ps (g, n)

/-- `skimage.measure.label(mask)` (also `morphology.label`): label image of
the connected components of a boolean mask. -/
def cclabel (m : BImg2D) : LImg2D :=
  (cclGo m (coordsOf m.H m.W) (zerosL m.H m.W, 1)).1

/-- One past the last label assigned by `cclabel`. -/
def cclNext (m : BImg2D) : Nat := (cclGo m (coordsOf m.H m.W) (zerosL m.H m.W, 1)).2

/-- The raster-scan invariant: at least one label is pending, all assigned
labels are below the next free one, every label below the next free one is
in use on a foreground pixel, and labels sit only on foreground pixels. -/
def CclInv (m : BImg2D) (g : LImg2D) (n : Nat) : Prop :=
  1 ≤ n ∧ (∀ q, g.get q < n) ∧
  (∀ k, 1 ≤ k → k < n → ∃ q, g.get q = k ∧ m.get q = true) ∧
  (∀ q, g.get q ≠ 0 → m.get q = true)

theorem cclGo_inv (m : BImg2D) : ∀ (ps : List (Nat × Nat)) (g : LImg2D) (n : Nat),
    CclInv m g n → CclInv m (cclGo m ps (g, n)).1 (cclGo m ps (g, n)).2 := by
  intro ps
  induction ps with
  | nil => intro g n h; exact h
  | cons p ps ih =>
    intro g n h
    obtain ⟨h1, h2, h3, h4⟩ := h
    rw [cclGo]
    by_cases hc : (m.get p && (g.get p == 0)) = true
    · rw [if_pos hc]
      apply ih
      have hc' := hc
      simp only [Bool.and_eq_true] at hc'
      obtain ⟨hmp, hgpb⟩ := hc'
      have hgp : g.get p = 0 := by simpa using hgpb
      have hn0 : n ≠ 0 := by omega
      refine ⟨by omega, ?_, ?_, ?_⟩
      · intro q
        rcases flood_get_char neighbors8 m n hn0 ((m.H * m.W + 1) * 9) [p] g q
          with heq | ⟨_, _, hl⟩
        · rw [heq]
          have := h2 q
          omega
        · rw [hl]
          omega
      · intro k hk1 hk2
        by_cases hkn : k = n
        · subst hkn
          exact ⟨p, flood_seed neighbors8 m k hn0 _ (by positivity) p [] g hmp hgp, hmp⟩
        · have hklt : k < n := by omega
          obtain ⟨q, hq, hmq⟩ := h3 k hk1 hklt
          refine ⟨q, ?_, hmq⟩
          rw [flood_preserve_nonzero neighbors8 m n hn0 _ _ g q (by omega)]
          exact hq
      · intro q hq
        rcases flood_get_char neighbors8 m n hn0 ((m.H * m.W + 1) * 9) [p] g q
          with heq | ⟨_, hm, _⟩
        · exact h4 q (by rw [← heq]; exact hq)
        · exact hm
    · rw [if_neg hc]
      exact ih g n ⟨h1, h2, h3, h4⟩

theorem cclGo_preserve_nonzero (m : BImg2D) :
    ∀ (ps : List (Nat × Nat)) (g : LImg2D) (n : Nat) (q : Nat × Nat),
      1 ≤ n → g.get q ≠ 0 → (cclGo m ps (g, n)).1.get q = g.get q := by
  intro ps
  induction ps with
  | nil => intro g n q _ _; rfl
  | cons p ps ih =>
    intro g n q hn hq
    rw [cclGo]
    by_cases hc : (m.get p && (g.get p == 0)) = true
    · rw [if_pos hc]
      have hn0 : n ≠ 0 := by omega
      have hfl := flood_preserve_nonzero neighbors8 m n hn0 ((m.H * m.W + 1) * 9)
        [p] g q hq
      rw [ih _ (n + 1) q (by omega) (by rw [hfl]; exact hq), hfl]
    · rw [if_neg hc]
      exact ih g n q hn hq

/-- After the raster scan, every foreground pixel that was scanned carries
a nonzero label. -/
theorem cclGo_covers (m : BImg2D) :
    ∀ (ps : List (Nat × Nat)) (g : LImg2D) (n : Nat) (p : Nat × Nat),
      1 ≤ n → p ∈ ps → m.get p = true → (cclGo m ps (g, n)).1.get p ≠ 0 := by
  intro ps
  induction ps with
  | nil => intro g n p _ hp _; exact absurd hp (List.not_mem_nil p)
  | cons q qs ih =>
    intro g n p hn hp hmp
    rw [cclGo]
    rcases List.mem_cons.mp hp with rfl | hmem
    · by_cases hc : (m.get p && (g.get p == 0)) = true
      · rw [if_pos hc]
        have hn0 : n ≠ 0 := by omega
        have hc' := hc
        simp only [Bool.and_eq_true] at hc'
        obtain ⟨_, hgpb⟩ := hc'
        have hgp : g.get p = 0 := by simpa using hgpb
        have hseed := flood_seed neighbors8 m n hn0 ((m.H * m.W + 1) * 9)
          (by positivity) p [] g hmp hgp
        rw [cclGo_preserve_nonzero m qs _ (n + 1) p (by omega) (by rw [hseed]; exact hn0)]
        rw [hseed]
        exact hn0
      · rw [if_neg hc]
        have hgp : g.get p ≠ 0 := by
          intro h0
          exact hc (by rw [hmp, h0]; rfl)
        rw [cclGo_preserve_nonzero m qs g n p hn hgp]
        exact hgp
    · by_cases hc : (m.get q && (g.get q == 0)) = true
      · rw [if_pos hc]
        exact ih _ (n + 1) p (by omega) hmem hmp
      · rw [if_neg hc]
        exact ih g n p hn hmem hmp

theorem cclGo_fst_dims (m : BImg2D) :
    ∀ (ps : List (Nat × Nat)) (g : LImg2D) (n : Nat),
      (cclGo m ps (g, n)).1.H = g.H ∧ (cclGo m ps (g, n)).1.W = g.W := by
  intro ps
  induction ps with
  | nil => intro g n; exact ⟨rfl, rfl⟩
  | cons p ps ih =>
    intro g n
    rw [cclGo]
    by_cases hc : (m.get p && (g.get p == 0)) = true
    · rw [if_pos hc]
      have hfd := flood_dims neighbors8 m n ((m.H * m.W + 1) * 9) [p] g
      have := ih (flood neighbors8 m n ((m.H * m.W + 1) * 9) [p] g) (n + 1)
      exact ⟨this.1.trans hfd.1, this.2.trans hfd.2⟩
    · rw [if_neg hc]
      exact ih g n

theorem mem_coordsOf (H W : Nat) (p : Nat × Nat) :
    p ∈ coordsOf H W ↔ p.1 < H ∧ p.2 < W := by
  rcases p with ⟨r, c⟩
  simp only [coordsOf, List.mem_flatMap, List.mem_map, List.mem_range]
  constructor
  · rintro ⟨a, ha, b, hb, heq⟩
    cases heq
    exact ⟨ha, hb⟩
  · rintro ⟨h1, h2⟩
    exact ⟨r, h1, c, h2, rfl⟩

theorem BImg2D.get_eq_true (m : BImg2D) (p : Nat × Nat) :
    m.get p = true ↔ p.1 < m.H ∧ p.2 < m.W ∧ m.val p.1 p.2 = true := by
  rw [BImg2D.get]
  simp [Bool.and_eq_true, and_assoc]

/-- `measure.label`'s contract, as used by the widgets: labels below
`cclNext` are exhaustively in use on foreground pixels, labels sit only on
foreground, and foreground is fully labelled. -/
theorem cclabel_spec (m : BImg2D) :
    1 ≤ cclNext m ∧
    (∀ q, (cclabel m).get q < cclNext m) ∧
    (∀ k, 1 ≤ k → k < cclNext m → ∃ q, (cclabel m).get q = k ∧ m.get q = true) ∧
    (∀ q, (cclabel m).get q ≠ 0 → m.get q = true) ∧
    (∀ q, m.get q = true → (cclabel m).get q ≠ 0) := by
  have hinv0 : CclInv m (zerosL m.H m.W) 1 := by
    refine ⟨le_rfl, ?_, ?_, ?_⟩
    · intro q
      show (0 : Nat) < 1
      omega
    · intro k hk1 hk2
      omega
    · intro q hq
      exact absurd rfl hq
  have hinv := cclGo_inv m (coordsOf m.H m.W) (zerosL m.H m.W) 1 hinv0
  obtain ⟨hn1, hub, hex, hfg⟩ := hinv
  refine ⟨hn1, hub, hex, hfg, ?_⟩
  intro q hq
  have hmem : q ∈ coordsOf m.H m.W := by
    rw [mem_coordsOf]
    have := (BImg2D.get_eq_true m q).mp hq
    exact ⟨this.1, this.2.1⟩
  exact cclGo_covers m (coordsOf m.H m.W) (zerosL m.H m.W) 1 q le_rfl hmem hq

theorem cclabel_dims (m : BImg2D) :
    (cclabel m).H = m.H ∧ (cclabel m).W = m.W :=
  cclGo_fst_dims m (coordsOf m.H m.W) (zerosL m.H m.W) 1

/-! #### Unique-positive-label counts -/

/-- `np.max(labels)` over a label image. -/
def maxValL (g : LImg2D) : Nat := (valuesL g).foldr max 0

/-- The number of distinct positive label values present (the number of
detected regions). -/
def countUniquePos (g : LImg2D) : Nat :=
  ((valuesL g).filter (fun v => decide (0 < v))).dedup.length

theorem mem_valuesL (g : LImg2D) (v : Nat) :
    v ∈ valuesL g ↔ ∃ p : Nat × Nat, p.1 < g.H ∧ p.2 < g.W ∧ g.get p = v := by
  simp only [valuesL, List.mem_map]
  constructor
  · rintro ⟨p, hp, rfl⟩
    have := (mem_coordsOf g.H g.W p).mp hp
    exact ⟨p, this.1, this.2, rfl⟩
  · rintro ⟨p, h1, h2, rfl⟩
    exact ⟨p, (mem_coordsOf g.H g.W p).mpr ⟨h1, h2⟩, rfl⟩

theorem le_foldr_max (l : List Nat) (v : Nat) (hv : v ∈ l) : v ≤ l.foldr max 0 := by
  induction l with
  | nil => exact absurd hv (List.not_mem_nil v)
  | cons x xs ih =>
    rcases List.mem_cons.mp hv with rfl | hmem
    · exact Nat.le_max_left _ _
    · exact le_trans (ih hmem) (Nat.le_max_right _ _)

theorem foldr_max_le (l : List Nat) (K : Nat) (h : ∀ v ∈ l, v ≤ K) :
    l.foldr max 0 ≤ K := by
  induction l with
  | nil => exact Nat.zero_le K
  | cons x xs ih =>
    have := h x (List.mem_cons_self x xs)
    have := ih (fun v hv => h v (List.mem_cons_of_mem x hv))
    simp only [List.foldr_cons]
    omega

/-- If a label image uses exactly the positive labels `{1..K}` (each on an
in-bounds pixel) and no label exceeds `K`, then the number of distinct
positive labels equals the maximum label value, both being `K`. -/
theorem posIcc_count_max (g : LImg2D) (K : Nat)
    (hub : ∀ q, g.get q ≤ K)
    (hex : ∀ k, 1 ≤ k → k ≤ K → ∃ p : Nat × Nat,
      g.get p = k ∧ p.1 < g.H ∧ p.2 < g.W) :
    countUniquePos g = K ∧ maxValL g = K := by
  have hset : ((valuesL g).filter (fun v => decide (0 < v))).toFinset =
      Finset.Icc 1 K := by
    ext v
    simp only [List.mem_toFinset, List.mem_filter, decide_eq_true_eq,
      Finset.mem_Icc]
    constructor
    · rintro ⟨hvmem, hvpos⟩
      obtain ⟨p, _, _, hp⟩ := (mem_valuesL g v).mp hvmem
      exact ⟨hvpos, hp ▸ hub p⟩
    · rintro ⟨h1, h2⟩
      obtain ⟨p, hp, hph, hpw⟩ := hex v h1 h2
      exact ⟨(mem_valuesL g v).mpr ⟨p, hph, hpw, hp⟩, h1⟩
  have hcount : countUniquePos g = K := by
    rw [countUniquePos, ← List.card_toFinset, hset, Nat.card_Icc]
    omega
  refine ⟨hcount, ?_⟩
  have hle : maxValL g ≤ K := by
    apply foldr_max_le
    intro v hv
    obtain ⟨p, _, _, hp⟩ := (mem_valuesL g v).mp hv
    exact hp ▸ hub p
  rcases Nat.eq_zero_or_pos K with hK | hK
  · omega
  · obtain ⟨p, hp, hph, hpw⟩ := hex K hK le_rfl
    have hmem : K ∈ valuesL g := (mem_valuesL g K).mpr ⟨p, hph, hpw, hp⟩
    have hge := le_foldr_max (valuesL g) K hmem
    simp only [maxValL] at hle ⊢
    omega

/-- For any boolean mask, `measure.label` output: distinct positive label
count = maximum label, and 0 marks exactly the background. -/
theorem cclabel_count_eq_max (m : BImg2D) :
    countUniquePos (cclabel m) = maxValL (cclabel m) ∧
    (∀ q, (cclabel m).get q = 0 ↔ m.get q = false) := by
  obtain ⟨hn1, hub, hex, hfg, hcov⟩ := cclabel_spec m
  obtain ⟨hH, hW⟩ := cclabel_dims m
  have hKM := posIcc_count_max (cclabel m) (cclNext m - 1)
    (fun q => by have := hub q; omega)
    (fun k hk1 hk2 => by
      obtain ⟨q, hq, hmq⟩ := hex k hk1 (by omega)
      obtain ⟨hb1, hb2, _⟩ := (BImg2D.get_eq_true m q).mp hmq
      exact ⟨q, hq, by omega, by omega⟩)
  refine ⟨by rw [hKM.1, hKM.2], ?_⟩
  intro q
  constructor
  · intro h0
    by_contra hm
    have hmt : m.get q = true := by
      cases hbool : m.get q
      · exact absurd hbool hm
      · rfl
    exact hcov q hmt h0
  · intro hm
    by_contra h0
    have := hfg q h0
    rw [hm] at this
    simp at this

/-! ### Morphology (`skimage.morphology`, `scipy.ndimage`)

`disk(r)` is the Euclidean ball `{(dy,dx) : dy² + dx² ≤ r²}`.  Erosion
treats out-of-bounds neighbours as foreground and dilation as background
(grey-morphology border padding).  `ndi.binary_fill_holes` (default
4-connected structuring element for the background) fills every background
region not connected to the border.  None of the verified statements
depend on the pixel values these produce — they enter the claims only as
the detection masks fed to the labelling stages. -/

def diskOffsets (rad : Nat) : List (ℤ × ℤ) :=
  ((List.range (2 * rad + 1)).flatMap (fun i => (List.range (2 * rad + 1)).map
    (fun j => ((i : ℤ) - rad, (j : ℤ) - rad)))).filter
    (fun o => decide (o.1 ^ 2 + o.2 ^ 2 ≤ (rad : ℤ) ^ 2))

/-- Signed-index mask read with an explicit out-of-bounds default. -/
def BImg2D.getZ (m : BImg2D) (i j : ℤ) (dflt : Bool) : Bool :=
  if 0 ≤ i ∧ i < (m.H : ℤ) ∧ 0 ≤ j ∧ j < (m.W : ℤ) then m.val i.toNat j.toNat
  else dflt

/-- `morphology.dilation(b, footprint=disk(rad))` on a boolean mask. -/
def dilB (rad : Nat) (b : BImg2D) : BImg2D :=
  ⟨b.H, b.W, fun r c =>
    (diskOffsets rad).any (fun o => b.getZ ((r : ℤ) + o.1) ((c : ℤ) + o.2) false)⟩

/-- `morphology.erosion(b, footprint=disk(rad))` on a boolean mask. -/
def eroB (rad : Nat) (b : BImg2D) : BImg2D :=
  ⟨b.H, b.W, fun r c =>
    (diskOffsets rad).all (fun o => b.getZ ((r : ℤ) + o.1) ((c : ℤ) + o.2) true)⟩

/-- `morphology.opening(b, footprint=disk(rad))`: erosion then dilation. -/
def openB (rad : Nat) (b : BImg2D) : BImg2D := dilB rad (eroB rad b)

/-- The complement mask (background pixels). -/
def compB (m : BImg2D) : BImg2D := ⟨m.H, m.W, fun r c => !(m.val r c)⟩

def borderCoords (H W : Nat) : List (Nat × Nat) :=
  (coordsOf H W).filter (fun p =>
    decide (p.1 = 0) || decide (p.1 = H - 1) || decide (p.2 = 0) ||
      decide (p.2 = W - 1))

/-- `ndi.binary_fill_holes(m)`: keep the foreground and additionally fill
every (4-connected) background region that does not reach the border. -/
def fill_holes (m : BImg2D) : BImg2D :=
  let reach := flood neighbors4 (compB m) 1 ((m.H * m.W + 1) * 9)
    (borderCoords m.H m.W) (zerosL m.H m.W)
  ⟨m.H, m.W, fun r c =>
    m.val r c || (decide (r < m.H) && decide (c < m.W) && (reach.get (r, c) == 0))⟩

/-! ### Mask builder (`mask_calc` / `_mask_calc`) -/

/-- The `masking_mode` GUI choice. -/
inductive MaskingMode | up | down
deriving DecidableEq

/-- The cleaned binary detection mask of `_mask_calc`: threshold against
`np.max(np.abs(detection_img))` (`>=` for up, `<=` for down), erosion by
`disk(2)`, dilation by `disk(1)`, hole filling, and the optional opening
(followed by another `disk(1)` dilation); the intermediate `astype(int)` is
the identity on a 0/1 mask. -/
def mask_calc_mask (detection_img : Img2D) (masking_mode : MaskingMode)
    (up_threshold down_threshold : ℚ) (opening_footprint : Nat) : BImg2D :=
  let m0 : BImg2D := match masking_mode with
    | .up => ⟨detection_img.H, detection_img.W, fun r c =>
        decide (gridMaxAbsQ detection_img * up_threshold ≤ detection_img.val r c)⟩
    | .down => ⟨detection_img.H, detection_img.W, fun r c =>
        decide (detection_img.val r c ≤ gridMaxAbsQ detection_img * down_threshold)⟩
  let m1 := fill_holes (dilB 1 (eroB 2 m0))
  if opening_footprint ≠ 0 then dilB 1 (openB opening_footprint m1) else m1

/-- `labels = measure.label(mask)` of `_mask_calc` (the detection frame is
`input_img[det_frame_index]`). -/
def mask_calc_labels (img : Img3D) (det_frame_index : Nat)
    (masking_mode : MaskingMode) (up_threshold down_threshold : ℚ)
    (opening_footprint : Nat) : LImg2D :=
  cclabel (mask_calc_mask (img.getD det_frame_index emptyImg) masking_mode
    up_threshold down_threshold opening_footprint)

/-- The region count reported by `_mask_calc`'s status message:
`np.max(labels)`. -/
def mask_calc_status (img : Img3D) (det_frame_index : Nat)
    (masking_mode : MaskingMode) (up_threshold down_threshold : ℚ)
    (opening_footprint : Nat) : Nat :=
  maxValL (mask_calc_labels img det_frame_index masking_mode up_threshold
    down_threshold opening_footprint)

/-! ### Up-mask builder (`up_mask_calc` / `_up_mask_calc`) -/

/-- The `in_ROIs_det_method` GUI choice. -/
inductive DetMethod | otsu | threshold
deriving DecidableEq

/-- `up_detection(img, method, th, div, op_f, d_f)`: strict threshold
against `np.max(np.abs(img)) * (th*div)` with erosion/dilation/fill-holes
cleanup, or a plain Otsu threshold; then the optional opening and the final
`disk(d_f)` dilation (`disk(0)` is the single-pixel footprint). -/
def up_detection (img : Img2D) (method : DetMethod) (th div : ℚ)
    (op_f d_f : Nat) : BImg2D :=
  let up_m : BImg2D := match method with
    | .threshold =>
      let m0 : BImg2D := ⟨img.H, img.W, fun r c =>
        decide (gridMaxAbsQ img * (th * div) < img.val r c)⟩
      fill_holes (dilB 1 (eroB 2 m0))
    | .otsu => ⟨img.H, img.W, fun r c => decide (threshold_otsu img < img.val r c)⟩
  let m1 := if op_f ≠ 0 then openB op_f up_m else up_m
  dilB d_f m1

/-- The `in_ROIs_det == False` branch of `_up_mask_calc`: whole-frame
`up_detection` in `'threshold'` mode with `div = 0.1`. -/
def up_mask_nonROI (img : Img3D) (det_frame_index : Nat) (det_th : ℚ)
    (final_opening_fp final_dilation_fp : Nat) : BImg2D :=
  up_detection (img.getD det_frame_index emptyImg) .threshold det_th (1 / 10)
    final_opening_fp final_dilation_fp

/-- `up_labels = measure.label(up_mask)` in the non-ROI branch. -/
def up_mask_nonROI_labels (img : Img3D) (det_frame_index : Nat) (det_th : ℚ)
    (final_opening_fp final_dilation_fp : Nat) : LImg2D :=
  cclabel (up_mask_nonROI img det_frame_index det_th final_opening_fp
    final_dilation_fp)

/-- The count reported by `_up_mask_calc`'s status message:
`np.max(measure.label(up_mask))`. -/
def up_mask_nonROI_status (img : Img3D) (det_frame_index : Nat) (det_th : ℚ)
    (final_opening_fp final_dilation_fp : Nat) : Nat :=
  maxValL (cclabel (up_mask_nonROI img det_frame_index det_th final_opening_fp
    final_dilation_fp))

/-! ### Peak detection (`skimage.feature.peak_local_max`)

Candidates are the pixels that strictly exceed the intensity threshold
(`max(threshold_abs, threshold_rel * image.max())`, with `threshold_abs`
defaulting to `image.min()`) and equal the maximum filter of the image over
the `(2·min_distance+1)²` square window (for in-window border positions the
`'reflect'` padding only repeats in-window values, so comparing against the
in-bounds window is exact).  Peaks within `min_distance` of the border are
excluded (`exclude_border=True` default), and remaining peaks are greedily
thinned in decreasing intensity order so that no two kept peaks are within
`min_distance` of each other. -/

def insBy {α : Type} (le : α → α → Bool) (x : α) : List α → List α
  | [] => [x]
  | y :: ys => if le x y then x :: y :: ys else y :: insBy le x ys

def isortBy {α : Type} (le : α → α → Bool) (l : List α) : List α :=
  l.foldr (insBy le) []

theorem mem_insBy {α : Type} (le : α → α → Bool) (x : α) :
    ∀ (l : List α) (a : α), a ∈ insBy le x l → a = x ∨ a ∈ l := by
  intro l
  induction l with
  | nil =>
    intro a ha
    rcases List.mem_singleton.mp ha with rfl
    exact Or.inl rfl
  | cons y ys ih =>
    intro a ha
    rw [insBy] at ha
    by_cases hle : le x y = true
    · rw [if_pos hle] at ha
      rcases List.mem_cons.mp ha with rfl | hmem
      · exact Or.inl rfl
      · exact Or.inr hmem
    · rw [if_neg hle] at ha
      rcases List.mem_cons.mp ha with rfl | hmem
      · exact Or.inr (List.mem_cons_self a ys)
      · rcases ih a hmem with h | h
        · exact Or.inl h
        · exact Or.inr (List.mem_cons_of_mem y h)

theorem mem_isortBy {α : Type} (le : α → α → Bool) (l : List α) (a : α)
    (h : a ∈ isortBy le l) : a ∈ l := by
  induction l with
  | nil => exact absurd h (List.not_mem_nil a)
  | cons y ys ih =>
    rcases mem_insBy le y (isortBy le ys) a h with rfl | hmem
    · exact List.mem_cons_self a ys
    · exact List.mem_cons_of_mem y (ih hmem)

/-- The `(2·md+1)²` square window around `p` (`Nat` clamping at the border
only repeats in-window positions). -/
def chebNbhd (md : Nat) (p : Nat × Nat) : List (Nat × Nat) :=
  (List.range (2 * md + 1)).flatMap (fun i => (List.range (2 * md + 1)).map
    (fun j => (p.1 + i - md, p.2 + j - md)))

/-- Squared Euclidean distance between two pixel coordinates. -/
def sqDistZ (p q : Nat × Nat) : ℤ :=
  ((p.1 : ℤ) - q.1) ^ 2 + ((p.2 : ℤ) - q.2) ^ 2

/-- Greedy minimum-spacing thinning (`skimage`'s `ensure_spacing`): keep a
candidate iff it is farther than `min_distance` from every kept one. -/
def plm_suppress (md2 : ℤ) : List (Nat × Nat) → List (Nat × Nat) → List (Nat × Nat)
  | kept, [] => kept.reverse
  | kept, p :: rest =>
    if kept.all (fun q => decide (md2 < sqDistZ p q)) then
      plm_suppress md2 (p :: kept) rest
    else plm_suppress md2 kept rest

theorem mem_plm_suppress (md2 : ℤ) :
    ∀ (input kept : List (Nat × Nat)) (x : Nat × Nat),
      x ∈ plm_suppress md2 kept input → x ∈ kept ∨ x ∈ input := by
  intro input
  induction input with
  | nil =>
    intro kept x hx
    rw [plm_suppress] at hx
    exact Or.inl (List.mem_reverse.mp hx)
  | cons p rest ih =>
    intro kept x hx
    rw [plm_suppress] at hx
    by_cases hall : (kept.all (fun q => decide (md2 < sqDistZ p q))) = true
    · rw [if_pos hall] at hx
      rcases ih (p :: kept) x hx with hk | hr
      · rcases List.mem_cons.mp hk with rfl | hk'
        · exact Or.inr (List.mem_cons_self x rest)
        · exact Or.inl hk'
      · exact Or.inr (List.mem_cons_of_mem p hr)
    · rw [if_neg hall] at hx
      rcases ih kept x hx with hk | hr
      · exact Or.inl hk
      · exact Or.inr (List.mem_cons_of_mem p hr)

/-- The peak intensity threshold: `threshold_abs` defaults to `image.min()`
and is combined with the optional `threshold_rel * image.max()` by `max`. -/
def plm_threshold (g : Img2D) (threshold_rel : Option ℚ) : ℚ :=
  match threshold_rel with
  | some tr => max (gridMinQ g) (tr * gridMaxQ g)
  | none => gridMinQ g

/-- The candidate peaks: above threshold, equal to the windowed maximum
filter, and not within `min_distance` of the border. -/
def plm_candidates (g : Img2D) (min_distance : Nat) (threshold_rel : Option ℚ) :
    List (Nat × Nat) :=
  ((coordsOf g.H g.W).filter (fun p =>
    decide (plm_threshold g threshold_rel < g.val p.1 p.2) &&
    ((chebNbhd min_distance p).all (fun q =>
      !(decide (q.1 < g.H) && decide (q.2 < g.W)) ||
        decide (g.val q.1 q.2 ≤ g.val p.1 p.2))))).filter (fun p =>
    decide (min_distance ≤ p.1) && decide (p.1 + min_distance < g.H) &&
    decide (min_distance ≤ p.2) && decide (p.2 + min_distance < g.W))

/-- `feature.peak_local_max(g, min_distance, threshold_rel)`: coordinates
of the detected peaks (`exclude_border` at its `True` default). -/
def peak_local_max (g : Img2D) (min_distance : Nat) (threshold_rel : Option ℚ) :
    List (Nat × Nat) :=
  plm_suppress ((min_distance : ℤ) ^ 2) []
    (isortBy (fun p q => decide (g.val q.1 q.2 ≤ g.val p.1 p.2))
      (plm_candidates g min_distance threshold_rel))

/-- Every returned peak is in bounds and strictly exceeds the image
minimum. -/
theorem peak_local_max_mem (g : Img2D) (md : Nat) (tr : Option ℚ)
    (p : Nat × Nat) (hp : p ∈ peak_local_max g md tr) :
    p.1 < g.H ∧ p.2 < g.W ∧ gridMinQ g < g.val p.1 p.2 := by
  rw [peak_local_max] at hp
  rcases mem_plm_suppress _ _ [] p hp with hk | hs
  · exact absurd hk (List.not_mem_nil p)
  · have hc2 := mem_isortBy _ _ p hs
    have hc := List.mem_filter.mp hc2
    have hcand := List.mem_filter.mp hc.1
    have hcoords := (mem_coordsOf g.H g.W p).mp hcand.1
    have hpred := hcand.2
    simp only [Bool.and_eq_true, decide_eq_true_eq] at hpred
    have hthr : plm_threshold g tr < g.val p.1 p.2 := hpred.1
    refine ⟨hcoords.1, hcoords.2, ?_⟩
    match tr with
    | none => exact hthr
    | some t => exact lt_of_le_of_lt (le_max_left _ _) hthr

/-! ### Euclidean distance transform (`scipy.ndimage.distance_transform_edt`)

Embedded with *squared* distances, which are order-isomorphic to the
Euclidean ones; both downstream consumers (`peak_local_max` and the
watershed flood priority) use only the ordering of the values, never the
values themselves.  Background pixels (and out-of-bounds reads) are 0. -/

def edtSqVal (m : BImg2D) (r c : Nat) : ℚ :=
  if m.get (r, c) = true then
    match ((coordsOf m.H m.W).filter (fun q => !(m.get q))).map
        (fun q => ((sqDistZ (r, c) q : ℤ) : ℚ)) with
    | [] => 0
    | d :: ds => ds.foldl min d
  else 0

def edtSq (m : BImg2D) : Img2D := ⟨m.H, m.W, edtSqVal m⟩

theorem sqDistZ_nonneg (p q : Nat × Nat) : (0 : ℤ) ≤ sqDistZ p q :=
  add_nonneg (sq_nonneg _) (sq_nonneg _)

theorem foldl_min_nonneg (l : List ℚ) :
    ∀ (d : ℚ), 0 ≤ d → (∀ x ∈ l, 0 ≤ x) → 0 ≤ l.foldl min d := by
  induction l with
  | nil => intro d hd _; exact hd
  | cons x xs ih =>
    intro d hd hall
    simp only [List.foldl_cons]
    exact ih (min d x) (le_min hd (hall x (List.mem_cons_self x xs)))
      (fun y hy => hall y (List.mem_cons_of_mem x hy))

theorem edtSq_nonneg (m : BImg2D) (r c : Nat) : 0 ≤ (edtSq m).val r c := by
  show 0 ≤ edtSqVal m r c
  rw [edtSqVal]
  by_cases hm : m.get (r, c) = true
  · rw [if_pos hm]
    rcases hl : ((coordsOf m.H m.W).filter (fun q => !(m.get q))).map
        (fun q => ((sqDistZ (r, c) q : ℤ) : ℚ)) with _ | ⟨d, ds⟩
    · exact le_refl 0
    · have hall : ∀ x ∈ (d :: ds), (0 : ℚ) ≤ x := by
        intro x hx
        rw [← hl] at hx
        obtain ⟨q, _, rfl⟩ := List.mem_map.mp hx
        exact_mod_cast sqDistZ_nonneg (r, c) q
      exact foldl_min_nonneg ds d (hall d (List.mem_cons_self d ds))
        (fun y hy => hall y (List.mem_cons_of_mem d hy))
  · rw [if_neg hm]

/-- A strictly positive transform value certifies a foreground pixel. -/
theorem edtSq_pos_mask (m : BImg2D) (r c : Nat)
    (h : 0 < (edtSq m).val r c) : m.get (r, c) = true := by
  by_contra hm
  have h0 : (edtSq m).val r c = 0 := by
    show edtSqVal m r c = 0
    rw [edtSqVal, if_neg hm]
  rw [h0] at h
  exact lt_irrefl 0 h

/-- Flattened values of a rational frame, as coordinates. -/
theorem mem_valuesQ (g : Img2D) (v : ℚ) :
    v ∈ valuesQ g ↔ ∃ p : Nat × Nat, p.1 < g.H ∧ p.2 < g.W ∧ g.val p.1 p.2 = v := by
  simp only [valuesQ, List.mem_map]
  constructor
  · rintro ⟨p, hp, rfl⟩
    have := (mem_coordsOf g.H g.W p).mp hp
    exact ⟨p, this.1, this.2, rfl⟩
  · rintro ⟨p, h1, h2, rfl⟩
    exact ⟨p, (mem_coordsOf g.H g.W p).mpr ⟨h1, h2⟩, rfl⟩

theorem listMinQ_nonneg (l : List ℚ) (h : ∀ x ∈ l, 0 ≤ x) : 0 ≤ listMinQ l := by
  rcases l with _ | ⟨x, xs⟩
  · exact le_refl 0
  · exact foldl_min_nonneg xs x (h x (List.mem_cons_self x xs))
      (fun y hy => h y (List.mem_cons_of_mem x hy))

theorem gridMinQ_edtSq_nonneg (m : BImg2D) : 0 ≤ gridMinQ (edtSq m) := by
  apply listMinQ_nonneg
  intro x hx
  obtain ⟨p, _, _, rfl⟩ := (mem_valuesQ (edtSq m) x).mp hx
  exact edtSq_nonneg m p.1 p.2

/-- Paint a coordinate list onto a boolean frame
(`peaks_img[tuple(peaks_coord.T)] = True` over `np.zeros_like`). -/
def coordsToB (H W : Nat) (l : List (Nat × Nat)) : BImg2D :=
  ⟨H, W, fun r c => decide ((r, c) ∈ l)⟩

/-- Pointwise negation (`-mask_dist_img`). -/
def negI (g : Img2D) : Img2D := ⟨g.H, g.W, fun r c => -(g.val r c)⟩

/-! ### Watershed (`skimage.segmentation.watershed`)

A deterministic priority flood from the markers, restricted to the mask
(4-connected, as for skimage's default `connectivity=1`): repeatedly pick
the unlabelled masked pixel adjacent to a labelled one with minimal
elevation and copy a labelled neighbour's label.  skimage's exact queue
order (including the `compactness=10` penalty term used by the dot-mask
builder) influences only the shapes of the basins; every verified property
(labels only inside the mask, marker labels preserved, no label values
beyond the markers') is independent of the flooding order, so the
`compactness` term is omitted from the priority. -/

/-- Markers restricted to the mask; everything else 0. -/
def wsInit (markers : LImg2D) (mask : BImg2D) : LImg2D :=
  ⟨mask.H, mask.W, fun r c => if mask.get (r, c) = true then markers.val r c else 0⟩

/-- The flooding frontier: unlabelled masked pixels with a labelled
4-neighbour. -/
def wsCandidates (mask : BImg2D) (g : LImg2D) : List (Nat × Nat) :=
  (coordsOf mask.H mask.W).filter (fun p =>
    mask.get p && (g.get p == 0) &&
    (neighbors4 p).any (fun q => !(g.get q == 0)))

/-- The label inherited from the first labelled 4-neighbour. -/
def wsNbrLabel (g : LImg2D) (p : Nat × Nat) : Nat :=
  (((neighbors4 p).map (fun q => g.get q)).filter (fun v => !(v == 0))).headD 0

/-- One flooding step: label the lowest-elevation frontier pixel. -/
def wsStep (elev : Img2D) (mask : BImg2D) (g : LImg2D) : LImg2D :=
  match (wsCandidates mask g).argmin (fun p => elev.val p.1 p.2) with
  | none => g
  | some p => g.set p (wsNbrLabel g p)

def wsRun (elev : Img2D) (mask : BImg2D) : Nat → LImg2D → LImg2D
  | 0, g => g
  | fuel + 1, g => wsRun elev mask fuel (wsStep elev mask g)

/-- `segmentation.watershed(elev, markers=markers, mask=mask)`. -/
def watershed (elev : Img2D) (markers : LImg2D) (mask : BImg2D) : LImg2D :=
  wsRun elev mask (mask.H * mask.W) (wsInit markers mask)

theorem wsNbrLabel_spec (g : LImg2D) (p : Nat × Nat)
    (h : ((neighbors4 p).any (fun q => !(g.get q == 0))) = true) :
    ∃ q₀, wsNbrLabel g p = g.get q₀ ∧ g.get q₀ ≠ 0 := by
  obtain ⟨q, hq, hqnz⟩ := List.any_eq_true.mp h
  have hmem : g.get q ∈ ((neighbors4 p).map (fun q => g.get q)).filter
      (fun v => !(v == 0)) :=
    List.mem_filter.mpr ⟨List.mem_map.mpr ⟨q, hq, rfl⟩, hqnz⟩
  rcases hfl : ((neighbors4 p).map (fun q => g.get q)).filter (fun v => !(v == 0))
    with _ | ⟨v, vs⟩
  · rw [hfl] at hmem
    exact absurd hmem (List.not_mem_nil _)
  · have hv : v ∈ ((neighbors4 p).map (fun q => g.get q)).filter (fun v => !(v == 0)) := by
      rw [hfl]
      exact List.mem_cons_self v vs
    have hv' := List.mem_filter.mp hv
    obtain ⟨q₀, _, hq₀⟩ := List.mem_map.mp hv'.1
    refine ⟨q₀, ?_, ?_⟩
    · rw [wsNbrLabel, hfl, List.headD_cons, hq₀]
    · rw [hq₀]
      simpa using hv'.2

/-- Step characterisation: each cell is untouched, or goes from 0 (on a
masked pixel) to the value of some already-labelled cell. -/
theorem wsStep_char (elev : Img2D) (mask : BImg2D) (g : LImg2D) (q : Nat × Nat) :
    (wsStep elev mask g).get q = g.get q ∨
    (g.get q = 0 ∧ mask.get q = true ∧
      ∃ q₀, (wsStep elev mask g).get q = g.get q₀ ∧ g.get q₀ ≠ 0) := by
  rw [wsStep]
  rcases hmin : (wsCandidates mask g).argmin (fun p => elev.val p.1 p.2) with _ | p
  · rw [hmin]
    left
    rfl
  · rw [hmin]
    have hp : p ∈ wsCandidates mask g := List.argmin_mem hmin
    have hp' := List.mem_filter.mp hp
    have hpred := hp'.2
    simp only [Bool.and_eq_true] at hpred
    obtain ⟨⟨hmask, hzero⟩, hany⟩ := hpred
    have hgp : g.get p = 0 := by simpa using hzero
    rw [LImg2D.get_set]
    by_cases hq : q = p
    · subst hq
      rw [if_pos rfl]
      right
      obtain ⟨q₀, hlab, hnz⟩ := wsNbrLabel_spec g q hany
      exact ⟨hgp, hmask, q₀, hlab, hnz⟩
    · rw [if_neg hq]
      left
      rfl

theorem wsStep_preserve (elev : Img2D) (mask : BImg2D) (g : LImg2D)
    (q : Nat × Nat) (hq : g.get q ≠ 0) :
    (wsStep elev mask g).get q = g.get q := by
  rcases wsStep_char elev mask g q with h | ⟨h0, _, _⟩
  · exact h
  · exact absurd h0 hq

theorem wsStep_fg (elev : Img2D) (mask : BImg2D) (g : LImg2D)
    (hfg : ∀ q, g.get q ≠ 0 → mask.get q = true) :
    ∀ q, (wsStep elev mask g).get q ≠ 0 → mask.get q = true := by
  intro q hq
  rcases wsStep_char elev mask g q with h | ⟨_, hm, _⟩
  · exact hfg q (h ▸ hq)
  · exact hm

theorem wsStep_posEq (elev : Img2D) (mask : BImg2D) (g : LImg2D) (v : Nat)
    (hv : v ≠ 0) :
    (∃ q, (wsStep elev mask g).get q = v) ↔ (∃ q, g.get q = v) := by
  constructor
  · rintro ⟨q, hq⟩
    rcases wsStep_char elev mask g q with h | ⟨_, _, q₀, heq, _⟩
    · exact ⟨q, h ▸ hq⟩
    · exact ⟨q₀, by rw [← heq, hq]⟩
  · rintro ⟨q, hq⟩
    exact ⟨q, by rw [wsStep_preserve elev mask g q (by rw [hq]; exact hv), hq]⟩

theorem wsStep_dims (elev : Img2D) (mask : BImg2D) (g : LImg2D) :
    (wsStep elev mask g).H = g.H ∧ (wsStep elev mask g).W = g.W := by
  rw [wsStep]
  rcases hmin : (wsCandidates mask g).argmin (fun p => elev.val p.1 p.2) with _ | p
  · rw [hmin]
    exact ⟨rfl, rfl⟩
  · rw [hmin]
    exact ⟨rfl, rfl⟩

theorem wsRun_fg (elev : Img2D) (mask : BImg2D) :
    ∀ (fuel : Nat) (g : LImg2D), (∀ q, g.get q ≠ 0 → mask.get q = true) →
      ∀ q, (wsRun elev mask fuel g).get q ≠ 0 → mask.get q = true := by
  intro fuel
  induction fuel with
  | zero => intro g hfg q hq; exact hfg q hq
  | succ fuel ih =>
    intro g hfg q hq
    exact ih (wsStep elev mask g) (wsStep_fg elev mask g hfg) q hq

theorem wsRun_posEq (elev : Img2D) (mask : BImg2D) :
    ∀ (fuel : Nat) (g : LImg2D) (v : Nat), v ≠ 0 →
      ((∃ q, (wsRun elev mask fuel g).get q = v) ↔ (∃ q, g.get q = v)) := by
  intro fuel
  induction fuel with
  | zero => intro g v _; exact Iff.rfl
  | succ fuel ih =>
    intro g v hv
    exact (ih (wsStep elev mask g) v hv).trans (wsStep_posEq elev mask g v hv)

theorem wsRun_dims (elev : Img2D) (mask : BImg2D) :
    ∀ (fuel : Nat) (g : LImg2D),
      (wsRun elev mask fuel g).H = g.H ∧ (wsRun elev mask fuel g).W = g.W := by
  intro fuel
  induction fuel with
  | zero => intro g; exact ⟨rfl, rfl⟩
  | succ fuel ih =>
    intro g
    obtain ⟨h1, h2⟩ := ih (wsStep elev mask g)
    obtain ⟨h3, h4⟩ := wsStep_dims elev mask g
    exact ⟨h1.trans h3, h2.trans h4⟩

theorem watershed_fg (elev : Img2D) (markers : LImg2D) (mask : BImg2D) :
    ∀ q, (watershed elev markers mask).get q ≠ 0 → mask.get q = true := by
  apply wsRun_fg
  intro q hq
  rcases q with ⟨r, c⟩
  by_contra hm
  have : (wsInit markers mask).get (r, c) = 0 := by
    show (if mask.get (r, c) = true then markers.val r c else 0) = 0
    rw [if_neg hm]
  exact hq this

theorem watershed_posEq (elev : Img2D) (markers : LImg2D) (mask : BImg2D)
    (v : Nat) (hv : v ≠ 0) :
    (∃ q, (watershed elev markers mask).get q = v) ↔
      (∃ q, (wsInit markers mask).get q = v) :=
  wsRun_posEq elev mask (mask.H * mask.W) (wsInit markers mask) v hv

theorem watershed_dims (elev : Img2D) (markers : LImg2D) (mask : BImg2D) :
    (watershed elev markers mask).H = mask.H ∧
    (watershed elev markers mask).W = mask.W :=
  wsRun_dims elev mask (mask.H * mask.W) (wsInit markers mask)

/-! ### Dots mask builder (`dot_mask_calc` / `_dot_mask_calc`) -/

/-- `prc_filt = lambda x, p: np.array(x - np.percentile(x, p)).clip(min=0)`. -/
def prc_filt (g : Img2D) (p : ℚ) : Img2D :=
  ⟨g.H, g.W, fun r c => max 0 (g.val r c - percentileQ (valuesQ g) p)⟩

/-- `detection_mip = prc_filt(np.max(input_img, axis=0), background_level)`. -/
def dot_detection_mip (img : Img3D) (background_level : ℚ) : Img2D :=
  prc_filt (maxProj img) background_level

/-- `peaks_img`: the boolean frame of
`feature.peak_local_max(detection_mip, min_distance=2,
threshold_rel=detection_level/100)` coordinates. -/
def dot_peaks_img (img : Img3D) (background_level detection_level : ℚ) : BImg2D :=
  coordsToB (dot_detection_mip img background_level).H
    (dot_detection_mip img background_level).W
    (peak_local_max (dot_detection_mip img background_level) 2
      (some (detection_level / 100)))

/-- `peaks_mask = morphology.dilation(peaks_img, footprint=disk(mask_diamets))`. -/
def dot_peaks_mask (img : Img3D) (background_level detection_level : ℚ)
    (mask_diamets : Nat) : BImg2D :=
  dilB mask_diamets (dot_peaks_img img background_level detection_level)

/-- `mask_dist_img = ndi.distance_transform_edt(peaks_mask)` (squared,
order-isomorphic embedding). -/
def dot_mask_dist (img : Img3D) (background_level detection_level : ℚ)
    (mask_diamets : Nat) : Img2D :=
  edtSq (dot_peaks_mask img background_level detection_level mask_diamets)

/-- `mask_centers`: the boolean frame of
`feature.peak_local_max(mask_dist_img, min_distance=minimal_distance)`. -/
def dot_mask_centers (img : Img3D) (background_level detection_level : ℚ)
    (minimal_distance mask_diamets : Nat) : BImg2D :=
  coordsToB (dot_mask_dist img background_level detection_level mask_diamets).H
    (dot_mask_dist img background_level detection_level mask_diamets).W
    (peak_local_max (dot_mask_dist img background_level detection_level mask_diamets)
      minimal_distance none)

/-- `morphology.label(mask_centers)`. -/
def dot_markers (img : Img3D) (background_level detection_level : ℚ)
    (minimal_distance mask_diamets : Nat) : LImg2D :=
  cclabel (dot_mask_centers img background_level detection_level minimal_distance
    mask_diamets)

/-- `peaks_labels = segmentation.watershed(-mask_dist_img, markers=...,
mask=peaks_mask, compactness=10)`. -/
def dot_labels (img : Img3D) (background_level detection_level : ℚ)
    (minimal_distance mask_diamets : Nat) : LImg2D :=
  watershed
    (negI (dot_mask_dist img background_level detection_level mask_diamets))
    (dot_markers img background_level detection_level minimal_distance mask_diamets)
    (dot_peaks_mask img background_level detection_level mask_diamets)

/-- The count reported by `_dot_mask_calc`'s status message:
`np.max(peaks_labels)`. -/
def dot_status (img : Img3D) (background_level detection_level : ℚ)
    (minimal_distance mask_diamets : Nat) : Nat :=
  maxValL (dot_labels img background_level detection_level minimal_distance
    mask_diamets)

/-- Every detected watershed centre lies inside the dilated peaks mask: a
centre is a peak of the distance transform, hence strictly above its
minimum, which is at least 0, and positive transform values certify
foreground. -/
theorem dot_centers_in_mask (img : Img3D) (bg dl : ℚ) (mind mdia : Nat)
    (p : Nat × Nat)
    (h : (dot_mask_centers img bg dl mind mdia).get p = true) :
    (dot_peaks_mask img bg dl mdia).get p = true := by
  obtain ⟨h1, h2, h3⟩ := (BImg2D.get_eq_true _ p).mp h
  have hmem : (p.1, p.2) ∈ peak_local_max (dot_mask_dist img bg dl mdia) mind none :=
    of_decide_eq_true h3
  have hpk := peak_local_max_mem (dot_mask_dist img bg dl mdia) mind none
    (p.1, p.2) hmem
  have hpos : 0 < (dot_mask_dist img bg dl mdia).val p.1 p.2 :=
    lt_of_le_of_lt (gridMinQ_edtSq_nonneg _) hpk.2.2
  exact edtSq_pos_mask (dot_peaks_mask img bg dl mdia) p.1 p.2 hpos

theorem wsInit_get (markers : LImg2D) (mask : BImg2D) (q : Nat × Nat) :
    (wsInit markers mask).get q =
      if mask.get q = true then markers.get q else 0 := rfl

/-- The dot-mask pipeline: labels sit only inside the detected peaks mask,
and the distinct positive label count equals the maximum label, which is
what the status message reports. -/
theorem dot_labels_spec (img : Img3D) (bg dl : ℚ) (mind mdia : Nat) :
    (∀ p, (dot_labels img bg dl mind mdia).get p = 0 ∨
      (dot_peaks_mask img bg dl mdia).get p = true) ∧
    countUniquePos (dot_labels img bg dl mind mdia) =
      maxValL (dot_labels img bg dl mind mdia) ∧
    dot_status img bg dl mind mdia =
      maxValL (dot_labels img bg dl mind mdia) := by
  have hfg : ∀ q, (dot_labels img bg dl mind mdia).get q ≠ 0 →
      (dot_peaks_mask img bg dl mdia).get q = true :=
    watershed_fg _ _ _
  obtain ⟨hn1, hub, hex, hcfg, hccov⟩ :=
    cclabel_spec (dot_mask_centers img bg dl mind mdia)
  have hposEq : ∀ v : Nat, v ≠ 0 →
      ((∃ q, (dot_labels img bg dl mind mdia).get q = v) ↔
        (∃ q, (dot_markers img bg dl mind mdia).get q = v)) := by
    intro v hv
    have hA : (∃ q, (wsInit (dot_markers img bg dl mind mdia)
        (dot_peaks_mask img bg dl mdia)).get q = v) ↔
        (∃ q, (dot_markers img bg dl mind mdia).get q = v) := by
      constructor
      · rintro ⟨q, hq⟩
        rw [wsInit_get] at hq
        by_cases hm : (dot_peaks_mask img bg dl mdia).get q = true
        · rw [if_pos hm] at hq
          exact ⟨q, hq⟩
        · rw [if_neg hm] at hq
          exact absurd hq.symm hv
      · rintro ⟨q, hq⟩
        have hq2 : (cclabel (dot_mask_centers img bg dl mind mdia)).get q = v := hq
        have hc : (dot_mask_centers img bg dl mind mdia).get q = true :=
          hcfg q (by rw [hq2]; exact hv)
        have hm := dot_centers_in_mask img bg dl mind mdia q hc
        refine ⟨q, ?_⟩
        rw [wsInit_get, if_pos hm, hq]
    exact (watershed_posEq _ _ _ v hv).trans hA
  have hdims := watershed_dims
    (negI (dot_mask_dist img bg dl mind)) (dot_markers img bg dl mind mdia)
    (dot_peaks_mask img bg dl mdia)
  refine ⟨?_, ?_, rfl⟩
  · intro p
    by_cases h0 : (dot_labels img bg dl mind mdia).get p = 0
    · exact Or.inl h0
    · exact Or.inr (hfg p h0)
  · have hKM := posIcc_count_max (dot_labels img bg dl mind mdia)
      (cclNext (dot_mask_centers img bg dl mind mdia) - 1)
      (by
        intro q
        by_cases h0 : (dot_labels img bg dl mind mdia).get q = 0
        · omega
        · obtain ⟨q', hq'⟩ := (hposEq _ h0).mp ⟨q, rfl⟩
          have hq'' : (cclabel (dot_mask_centers img bg dl mind mdia)).get q' =
              (dot_labels img bg dl mind mdia).get q := hq'
          have := hub q'
          omega)
      (by
        intro k hk1 hk2
        obtain ⟨q, hqk, hcq⟩ := hex k hk1 (by omega)
        have hm := dot_centers_in_mask img bg dl mind mdia q
          (hcfg q (by rw [hqk]; omega))
        obtain ⟨q', hq'⟩ := (hposEq k (by omega)).mpr ⟨q, hqk⟩
        have hmq' := hfg q' (by rw [hq']; omega)
        obtain ⟨hb1, hb2, _⟩ := (BImg2D.get_eq_true _ q').mp hmq'
        have hH : (dot_labels img bg dl mind mdia).H =
            (dot_peaks_mask img bg dl mdia).H := (watershed_dims _ _ _).1
        have hW : (dot_labels img bg dl mind mdia).W =
            (dot_peaks_mask img bg dl mdia).W := (watershed_dims _ _ _).2
        exact ⟨q', hq', by omega, by omega⟩)
    rw [hKM.1, hKM.2]

/-! ### ROI-scoped up-mask detection (`_up_mask_calc` with `in_ROIs_det`)

`measure.regionprops(rois_mask)` iterates the positive label values in
ascending order; for each, the detection runs on the region's bounding box,
is zeroed where the ROI label image is 0 inside that box, is multiplied by
the region's label, and is written back into `up_labels` over the bounding
box.  The local `up_mask = up_labels > 0` is (re)assigned *inside* the
loop body, so with no ROI regions it is never assigned and the subsequent
status-message read raises `UnboundLocalError` before anything is
yielded. -/

/-- `np.unique`-style ascending positive labels (the regions
`measure.regionprops` iterates). -/
def positive_uniquesL (lab : LImg2D) : List Nat :=
  ((sortAsc (valuesL lab)).dedup).filter (fun v => decide (0 < v))

/-- `region.bbox`: `(min_row, min_col, max_row + 1, max_col + 1)` of the
pixels carrying label `L`. -/
structure BBox where
  r0 : Nat
  c0 : Nat
  r1 : Nat
  c1 : Nat

def bboxOf (lab : LImg2D) (L : Nat) : BBox :=
  match (coordsOf lab.H lab.W).filter (fun p => decide (lab.val p.1 p.2 = L)) with
  | [] => ⟨0, 0, 0, 0⟩
  | q :: qs =>
    ⟨(qs.map Prod.fst).foldl min q.1, (qs.map Prod.snd).foldl min q.2,
     (qs.map Prod.fst).foldl max q.1 + 1, (qs.map Prod.snd).foldl max q.2 + 1⟩

/-- `detection_img[bbox]` (and likewise `rois_mask[bbox]`). -/
def subQ (g : Img2D) (bb : BBox) : Img2D :=
  ⟨bb.r1 - bb.r0, bb.c1 - bb.c0, fun r c => g.val (bb.r0 + r) (bb.c0 + c)⟩

/-- `up_labels[bbox] = sub`: replace the bounding-box window. -/
def writeSubL (g : LImg2D) (bb : BBox) (sub : LImg2D) : LImg2D :=
  ⟨g.H, g.W, fun r c =>
    if bb.r0 ≤ r ∧ r < bb.r0 + sub.H ∧ bb.c0 ≤ c ∧ c < bb.c0 + sub.W then
      sub.val (r - bb.r0) (c - bb.c0)
    else g.val r c⟩

/-- One ROI's labelled sub-mask: `up_detection` on the boxed detection
frame, zeroed where the boxed ROI image is 0
(`one_roi_mask[one_roi_input_mask] = 0`), times the region label. -/
def roiLocalMask (detection_img : Img2D) (rois_mask : LImg2D) (method : DetMethod)
    (th div : ℚ) (op_f d_f : Nat) (L : Nat) : LImg2D :=
  ⟨(bboxOf rois_mask L).r1 - (bboxOf rois_mask L).r0,
   (bboxOf rois_mask L).c1 - (bboxOf rois_mask L).c0,
   fun r c =>
    if (up_detection (subQ detection_img (bboxOf rois_mask L)) method th div
          op_f d_f).val r c = true ∧
        rois_mask.val ((bboxOf rois_mask L).r0 + r) ((bboxOf rois_mask L).c0 + c) ≠ 0
    then L else 0⟩

/-- One iteration of the `regionprops` loop acting on `up_labels`. -/
def roiStep (detection_img : Img2D) (rois_mask : LImg2D) (method : DetMethod)
    (th div : ℚ) (op_f d_f : Nat) (up_labels : LImg2D) (L : Nat) : LImg2D :=
  writeSubL up_labels (bboxOf rois_mask L)
    (roiLocalMask detection_img rois_mask method th div op_f d_f L)

/-- One iteration of the loop acting on the `(up_labels, up_mask)` pair:
`up_mask = up_labels > 0` is reassigned from the full updated label image
each time through the loop. -/
def upROIStep (detection_img : Img2D) (rois_mask : LImg2D) (method : DetMethod)
    (th div : ℚ) (op_f d_f : Nat) (s : LImg2D × Option BImg2D) (L : Nat) :
    LImg2D × Option BImg2D :=
  (roiStep detection_img rois_mask method th div op_f d_f s.1 L,
   some ⟨rois_mask.H, rois_mask.W, fun r c =>
     !((roiStep detection_img rois_mask method th div op_f d_f s.1 L).val r c == 0)⟩)

/-- The `in_ROIs_det == True` branch of `_up_mask_calc`, up to the point
where the status message reads `up_mask`: reading it before any loop
iteration assigned it raises `UnboundLocalError` (modelled as the
`Except.error` case), aborting the worker before any yield. -/
def up_mask_calc_inROIs (img : Img3D) (rois_mask : LImg2D) (det_frame_index : Nat)
    (method : DetMethod) (det_th in_ROIs_det_th_corr : ℚ)
    (final_opening_fp final_dilation_fp : Nat) :
    Except String (LImg2D × BImg2D) :=
  match (positive_uniquesL rois_mask).foldl
      (upROIStep (img.getD det_frame_index emptyImg) rois_mask method det_th
        in_ROIs_det_th_corr final_opening_fp final_dilation_fp)
      (zerosL rois_mask.H rois_mask.W, none) with
  | (_, none) =>
    Except.error "UnboundLocalError: local variable up_mask referenced before assignment"
  | (up_labels, some up_mask) => Except.ok (up_labels, up_mask)

/-- The label image the ROI-scoped branch yields (when it yields). -/
def up_mask_inROIs_labels (img : Img3D) (rois_mask : LImg2D) (det_frame_index : Nat)
    (method : DetMethod) (det_th in_ROIs_det_th_corr : ℚ)
    (final_opening_fp final_dilation_fp : Nat) : LImg2D :=
  ((positive_uniquesL rois_mask).foldl
    (upROIStep (img.getD det_frame_index emptyImg) rois_mask method det_th
      in_ROIs_det_th_corr final_opening_fp final_dilation_fp)
    (zerosL rois_mask.H rois_mask.W, none)).1

theorem mem_insSorted_iff {α : Type} [LinearOrder α] (x : α) (l : List α) (a : α) :
    a ∈ insSorted x l ↔ a = x ∨ a ∈ l := by
  induction l with
  | nil => simp [insSorted]
  | cons y ys ih =>
    rw [insSorted]
    by_cases h : x ≤ y
    · rw [if_pos h]
      simp [List.mem_cons]
    · rw [if_neg h]
      simp only [List.mem_cons, ih]
      tauto

theorem mem_sortAsc_iff {α : Type} [LinearOrder α] (l : List α) (a : α) :
    a ∈ sortAsc l ↔ a ∈ l := by
  induction l with
  | nil => exact Iff.rfl
  | cons x xs ih =>
    show a ∈ insSorted x (sortAsc xs) ↔ _
    rw [mem_insSorted_iff, ih, List.mem_cons]

theorem positive_uniquesL_nil (rois : LImg2D) (h : ∀ v ∈ valuesL rois, v = 0) :
    positive_uniquesL rois = [] := by
  rw [List.eq_nil_iff_forall_not_mem]
  intro v hv
  have hv' := List.mem_filter.mp hv
  have hv0 : 0 < v := of_decide_eq_true hv'.2
  have hvm : v ∈ sortAsc (valuesL rois) := List.mem_dedup.mp hv'.1
  have := h v ((mem_sortAsc_iff (valuesL rois) v).mp hvm)
  omega

theorem positive_uniquesL_ne_nil (rois : LImg2D) (v : Nat) (hv : v ∈ valuesL rois)
    (hpos : 0 < v) : positive_uniquesL rois ≠ [] := by
  intro hnil
  have hmem : v ∈ positive_uniquesL rois := by
    apply List.mem_filter.mpr
    refine ⟨List.mem_dedup.mpr ((mem_sortAsc_iff (valuesL rois) v).mpr hv), ?_⟩
    exact decide_eq_true hpos
  rw [hnil] at hmem
  exact List.not_mem_nil v hmem

theorem upROIStep_foldl_some (det : Img2D) (rois : LImg2D) (method : DetMethod)
    (th div : ℚ) (opf dlf : Nat) :
    ∀ (l : List Nat) (s : LImg2D × Option BImg2D), l ≠ [] →
      ∃ u, (l.foldl (upROIStep det rois method th div opf dlf) s).2 = some u := by
  intro l
  induction l with
  | nil => intro s h; exact absurd rfl h
  | cons x xs ih =>
    intro s _
    rcases xs with _ | ⟨y, ys⟩
    · exact ⟨_, rfl⟩
    · exact ih (upROIStep det rois method th div opf dlf s x) (by simp)

theorem writeSubL_val (g : LImg2D) (bb : BBox) (sub : LImg2D) (r c : Nat) :
    (writeSubL g bb sub).val r c =
      if bb.r0 ≤ r ∧ r < bb.r0 + sub.H ∧ bb.c0 ≤ c ∧ c < bb.c0 + sub.W then
        sub.val (r - bb.r0) (c - bb.c0)
      else g.val r c := rfl

/-- Inside the ROI loop, a pixel can only hold a nonzero up-label if its
ROI label is nonzero: the written sub-mask is explicitly zeroed where the
boxed ROI image is 0, and pixels outside the box are untouched. -/
theorem roiStep_inv (det : Img2D) (rois : LImg2D) (method : DetMethod)
    (th div : ℚ) (opf dlf : Nat) (g : LImg2D) (L : Nat)
    (hg : ∀ r c, g.val r c = 0 ∨ rois.val r c ≠ 0) :
    ∀ r c, (roiStep det rois method th div opf dlf g L).val r c = 0 ∨
      rois.val r c ≠ 0 := by
  intro r c
  rw [roiStep, writeSubL_val]
  by_cases hwin : (bboxOf rois L).r0 ≤ r ∧
      r < (bboxOf rois L).r0 + (roiLocalMask det rois method th div opf dlf L).H ∧
      (bboxOf rois L).c0 ≤ c ∧
      c < (bboxOf rois L).c0 + (roiLocalMask det rois method th div opf dlf L).W
  · rw [if_pos hwin]
    show (if (up_detection (subQ det (bboxOf rois L)) method th div opf dlf).val
        (r - (bboxOf rois L).r0) (c - (bboxOf rois L).c0) = true ∧
        rois.val ((bboxOf rois L).r0 + (r - (bboxOf rois L).r0))
          ((bboxOf rois L).c0 + (c - (bboxOf rois L).c0)) ≠ 0
      then L else 0) = 0 ∨ rois.val r c ≠ 0
    by_cases hdet : (up_detection (subQ det (bboxOf rois L)) method th div opf dlf).val
        (r - (bboxOf rois L).r0) (c - (bboxOf rois L).c0) = true ∧
        rois.val ((bboxOf rois L).r0 + (r - (bboxOf rois L).r0))
          ((bboxOf rois L).c0 + (c - (bboxOf rois L).c0)) ≠ 0
    · right
      have hr : (bboxOf rois L).r0 + (r - (bboxOf rois L).r0) = r := by omega
      have hc : (bboxOf rois L).c0 + (c - (bboxOf rois L).c0) = c := by omega
      have := hdet.2
      rw [hr, hc] at this
      exact this
    · left
      rw [if_neg hdet]
  · rw [if_neg hwin]
    exact hg r c

theorem upROIStep_foldl_inv (det : Img2D) (rois : LImg2D) (method : DetMethod)
    (th div : ℚ) (opf dlf : Nat) :
    ∀ (l : List Nat) (s : LImg2D × Option BImg2D),
      (∀ r c, s.1.val r c = 0 ∨ rois.val r c ≠ 0) →
      ∀ r c, (l.foldl (upROIStep det rois method th div opf dlf) s).1.val r c = 0 ∨
        rois.val r c ≠ 0 := by
  intro l
  induction l with
  | nil => intro s hs r c; exact hs r c
  | cons x xs ih =>
    intro s hs r c
    exact ih (upROIStep det rois method th div opf dlf s x)
      (fun r' c' => roiStep_inv det rois method th div opf dlf s.1 x hs r' c') r c

/-- Claim C10: with ROI-scoped detection enabled, an ROI label image with no
positive region makes the worker fail (the local `up_mask` is read for the
status message without ever having been assigned) before anything is
yielded; a label result is produced exactly when at least one ROI region
exists. -/
theorem up_mask_inROIs_empty_error :
    (∀ (img : Img3D) (rois_mask : LImg2D) (det_frame_index : Nat)
        (method : DetMethod) (det_th corr : ℚ) (opf dlf : Nat),
      (∀ v ∈ valuesL rois_mask, v = 0) →
      up_mask_calc_inROIs img rois_mask det_frame_index method det_th corr opf dlf =
        Except.error
          "UnboundLocalError: local variable up_mask referenced before assignment") ∧
    (∀ (img : Img3D) (rois_mask : LImg2D) (det_frame_index : Nat)
        (method : DetMethod) (det_th corr : ℚ) (opf dlf : Nat) (v : Nat),
      v ∈ valuesL rois_mask → 0 < v →
      ∃ out, up_mask_calc_inROIs img rois_mask det_frame_index method det_th corr
        opf dlf = Except.ok out) := by
  constructor
  · intro img rois_mask det_frame_index method det_th corr opf dlf hz
    have hnil := positive_uniquesL_nil rois_mask hz
    rw [up_mask_calc_inROIs, hnil]
    rfl
  · intro img rois_mask det_frame_index method det_th corr opf dlf v hv hpos
    have hne := positive_uniquesL_ne_nil rois_mask v hv hpos
    obtain ⟨u, hu⟩ := upROIStep_foldl_some (img.getD det_frame_index emptyImg)
      rois_mask method det_th corr opf dlf (positive_uniquesL rois_mask)
      (zerosL rois_mask.H rois_mask.W, none) hne
    rw [up_mask_calc_inROIs]
    rcases hres : (positive_uniquesL rois_mask).foldl
        (upROIStep (img.getD det_frame_index emptyImg) rois_mask method det_th
          corr opf dlf)
        (zerosL rois_mask.H rois_mask.W, none) with ⟨g, o⟩
    rw [hres] at hu
    simp only at hu
    subst hu
    exact ⟨(g, u), rfl⟩

/-- A 1×1 all-zero ROI label frame. -/
def exRoisZero : LImg2D := ⟨1, 1, fun _ _ => 0⟩

/-- A 1×1 ROI label frame whose single pixel carries label 1. -/
def exRoisOne : LImg2D := ⟨1, 1, fun _ _ => 1⟩

theorem up_mask_inROIs_empty_error_w :
    (up_mask_calc_inROIs [] exRoisZero 2 .threshold (1 / 4) (1 / 10) 1 0 =
      Except.error
        "UnboundLocalError: local variable up_mask referenced before assignment") ∧
    ∃ out, up_mask_calc_inROIs [] exRoisOne 2 .threshold (1 / 4) (1 / 10) 1 0 =
      Except.ok out :=
  ⟨up_mask_inROIs_empty_error.1 [] exRoisZero 2 .threshold (1 / 4) (1 / 10) 1 0
    (by decide),
   up_mask_inROIs_empty_error.2 [] exRoisOne 2 .threshold (1 / 4) (1 / 10) 1 0 1
    (by decide) (by decide)⟩

/-- Claim C7: in every Mask Builder's output label image, label 0 never
identifies a detected region — for the threshold builders 0 marks exactly
the background of the detection mask, for the ROI-scoped builder a nonzero
up-label certifies a nonzero ROI label, and for the watershed dots builder
a nonzero label certifies a detected peaks-mask pixel — and for the
non-ROI-scoped builders the number of distinct positive labels equals the
maximum label value, which is exactly the number reported in the status
message. -/
theorem mask_builders_label_invariants :
    (∀ (img : Img3D) (det_frame_index : Nat) (masking_mode : MaskingMode)
        (up_threshold down_threshold : ℚ) (opening_footprint : Nat),
      (∀ p, (mask_calc_labels img det_frame_index masking_mode up_threshold
          down_threshold opening_footprint).get p = 0 ↔
        (mask_calc_mask (img.getD det_frame_index emptyImg) masking_mode
          up_threshold down_threshold opening_footprint).get p = false) ∧
      countUniquePos (mask_calc_labels img det_frame_index masking_mode
          up_threshold down_threshold opening_footprint) =
        maxValL (mask_calc_labels img det_frame_index masking_mode up_threshold
          down_threshold opening_footprint) ∧
      mask_calc_status img det_frame_index masking_mode up_threshold
          down_threshold opening_footprint =
        maxValL (mask_calc_labels img det_frame_index masking_mode up_threshold
          down_threshold opening_footprint)) ∧
    (∀ (img : Img3D) (det_frame_index : Nat) (det_th : ℚ) (opf dlf : Nat),
      (∀ p, (up_mask_nonROI_labels img det_frame_index det_th opf dlf).get p = 0 ↔
        (up_mask_nonROI img det_frame_index det_th opf dlf).get p = false) ∧
      countUniquePos (up_mask_nonROI_labels img det_frame_index det_th opf dlf) =
        maxValL (up_mask_nonROI_labels img det_frame_index det_th opf dlf) ∧
      up_mask_nonROI_status img det_frame_index det_th opf dlf =
        maxValL (up_mask_nonROI_labels img det_frame_index det_th opf dlf)) ∧
    (∀ (img : Img3D) (rois_mask : LImg2D) (det_frame_index : Nat)
        (method : DetMethod) (det_th corr : ℚ) (opf dlf : Nat) (r c : Nat),
      (up_mask_inROIs_labels img rois_mask det_frame_index method det_th corr
          opf dlf).val r c = 0 ∨
        rois_mask.val r c ≠ 0) ∧
    (∀ (img : Img3D) (bg dl : ℚ) (mind mdia : Nat),
      (∀ p, (dot_labels img bg dl mind mdia).get p = 0 ∨
        (dot_peaks_mask img bg dl mdia).get p = true) ∧
      countUniquePos (dot_labels img bg dl mind mdia) =
        maxValL (dot_labels img bg dl mind mdia) ∧
      dot_status img bg dl mind mdia = maxValL (dot_labels img bg dl mind mdia)) := by
  refine ⟨?_, ?_, ?_, ?_⟩
  · intro img det_frame_index masking_mode up_threshold down_threshold opening_footprint
    obtain ⟨hcm, hiff⟩ := cclabel_count_eq_max (mask_calc_mask
      (img.getD det_frame_index emptyImg) masking_mode up_threshold
      down_threshold opening_footprint)
    exact ⟨hiff, hcm, rfl⟩
  · intro img det_frame_index det_th opf dlf
    obtain ⟨hcm, hiff⟩ := cclabel_count_eq_max
      (up_mask_nonROI img det_frame_index det_th opf dlf)
    exact ⟨hiff, hcm, rfl⟩
  · intro img rois_mask det_frame_index method det_th corr opf dlf r c
    exact upROIStep_foldl_inv (img.getD det_frame_index emptyImg) rois_mask
      method det_th corr opf dlf (positive_uniquesL rois_mask)
      (zerosL rois_mask.H rois_mask.W, none) (fun _ _ => Or.inl rfl) r c
  · intro img bg dl mind mdia
    exact dot_labels_spec img bg dl mind mdia

/-! ### Synchronous phases versus dispatched workers

Each widget below is split exactly as the source is: whatever runs before
the `_xxx()` worker call is the synchronous phase (the outer `Except`),
the `@thread_worker` body is the dispatched phase.  Seven of the eight
dispatching widgets check the input dimensionality synchronously and raise
before defining/dispatching the worker; `split_channels` is the exception —
its checks are inside the worker (see `split_channels_widget` above). -/

/-- `der_series`: raises on non-3-D input before any worker is created. -/
def der_series_widget (img : NDImage) (left_frames space_frames right_frames : Nat)
    (normalize_by_int save_MIP : Bool) : Except String (Img3D × Option Img2D) :=
  match img with
  | .d3 d =>
    Except.ok
      (der_series_worker d left_frames space_frames right_frames normalize_by_int,
       if save_MIP then
         some (der_mip d left_frames space_frames right_frames normalize_by_int)
       else none)
  | _ => Except.error "The input image should have 3 dimensions!"

/-- `split_sep`: raises on non-3-D input before dispatch; the worker yields
the total and intra stride-2 sub-series (and optional projections). -/
def split_sep_widget (img : NDImage) (pH_1st_frame : PhOrder)
    (calc_surface_img calc_projections : Bool) : Except String (Img3D × Img3D) :=
  match img with
  | .d3 d =>
    Except.ok (split_sep_total pH_1st_frame d, split_sep_intra pH_1st_frame d)
  | _ => Except.error "The input image should have 3 dimensions!"

/-- `dw_registration`: raises on non-4-D offset input before dispatch. -/
def dw_registration_widget (optimize : Img2D → Img2D → AffineMap2D)
    (offset_img : NDImage) (reference_img : Img3D) (use_reference_img : Bool)
    (input_crop output_crop : Nat) : Except String Img4D :=
  match offset_img with
  | .d4 d =>
    Except.ok (dw_registration_worker optimize d reference_img use_reference_img
      input_crop output_crop)
  | _ => Except.error "Incorrect input image shape!"

/-- The fields of the external `e_app.Eapp` result object that the worker
reads. -/
structure EappRes where
  Eapp_img : Img3D
  Ecorr_img : Img3D
  Fc_img : Img3D

/-- The `output_type` GUI choice of the FRET calculator. -/
inductive FretOutput | Eapp | Ecorr | Fc
deriving DecidableEq

/-- `_e_app_calc()`: the external ratiometric FRET computation `e_app.Eapp`
is a parameter (`eappFn`, receiving the three stacks, `abcd_list =
[a,0,0,d]`, `G` and the `proc_mask` foreground mask of the time-averaged
acceptor channel); the worker selects the requested output image and
optionally also yields it rescaled by the min-max-normalised acceptor
mean. -/
def e_app_worker (eappFn : Img3D → Img3D → Img3D → List ℚ → ℚ → BImg2D → EappRes)
    (DD DA AA : Img3D) (a d G : ℚ) (output_type : FretOutput)
    (save_normalized : Bool) : Img3D × Option Img3D :=
  let res := eappFn DD DA AA [a, 0, 0, d] G (proc_mask (frames_mean AA))
  let output_fret_img := match output_type with
    | .Ecorr => res.Ecorr_img
    | .Eapp => res.Eapp_img
    | .Fc => res.Fc_img
  (output_fret_img,
   if save_normalized then
     some (output_fret_img.map (fun f => imgMul f (minmaxNorm (frames_mean AA))))
   else none)

/-- `e_app_calc`: raises unless all three inputs are 3-D, before dispatch. -/
def e_app_widget (eappFn : Img3D → Img3D → Img3D → List ℚ → ℚ → BImg2D → EappRes)
    (DD_img DA_img AA_img : NDImage) (a d G : ℚ) (output_type : FretOutput)
    (save_normalized : Bool) : Except String (Img3D × Option Img3D) :=
  match DD_img, DA_img, AA_img with
  | .d3 x, .d3 y, .d3 z =>
    Except.ok (e_app_worker eappFn x y z a d G output_type save_normalized)
  | _, _, _ => Except.error "Incorrect input image shape!"

/-- `dot_mask_calc`: raises on non-3-D input before dispatch. -/
def dot_mask_widget (img : NDImage) (background_level detection_level : ℚ)
    (minimal_distance mask_diamets : Nat) : Except String (LImg2D × Nat) :=
  match img with
  | .d3 s =>
    Except.ok
      (dot_labels s background_level detection_level minimal_distance mask_diamets,
       dot_status s background_level detection_level minimal_distance mask_diamets)
  | _ => Except.error "The input image should have 3 dimensions!"

/-- `up_mask_calc`: raises on non-3-D input before dispatch; the dispatched
worker itself may fail (the inner `Except`, see `up_mask_calc_inROIs`). -/
def up_mask_widget (img : NDImage) (ROIs_mask : LImg2D) (det_frame_index : Nat)
    (det_th : ℚ) (in_ROIs_det : Bool) (in_ROIs_det_method : DetMethod)
    (in_ROIs_det_th_corr : ℚ) (final_opening_fp final_dilation_fp : Nat) :
    Except String (Except String (LImg2D × BImg2D)) :=
  match img with
  | .d3 s =>
    Except.ok
      (if in_ROIs_det then
        up_mask_calc_inROIs s ROIs_mask det_frame_index in_ROIs_det_method det_th
          in_ROIs_det_th_corr final_opening_fp final_dilation_fp
      else
        Except.ok
          (up_mask_nonROI_labels s det_frame_index det_th final_opening_fp
            final_dilation_fp,
           up_mask_nonROI s det_frame_index det_th final_opening_fp
            final_dilation_fp))
  | _ => Except.error "The input image should have 3 dimensions!"

/-- `mask_calc`: raises on non-3-D input before dispatch. -/
def mask_calc_widget (img : NDImage) (det_frame_index : Nat)
    (masking_mode : MaskingMode) (up_threshold down_threshold : ℚ)
    (opening_footprint : Nat) : Except String (LImg2D × Nat) :=
  match img with
  | .d3 s =>
    Except.ok
      (mask_calc_labels s det_frame_index masking_mode up_threshold
        down_threshold opening_footprint,
       mask_calc_status s det_frame_index masking_mode up_threshold
        down_threshold opening_footprint)
  | _ => Except.error "The input image should have 3 dimensions!"

/-- Claim C3 counterexample: for a 2-D input, the Channel Splitter's
synchronous phase succeeds — the computation *is* dispatched — and the
"should have 3 or 4 dimensions" rejection only happens inside the
dispatched worker, contradicting "raised synchronously before dispatch". -/
theorem split_channels_validates_after_dispatch_cex :
    split_channels_widget (.d2 exG) .TCXY true 2 true false .exp false [0, 10] =
      Except.ok
        (split_channels_worker (.d2 exG) .TCXY true 2 true false .exp false
          [0, 10]) ∧
    split_channels_worker (.d2 exG) .TCXY true 2 true false .exp false [0, 10] =
      Except.error "Input image should have 3 or 4 dimensions!" :=
  ⟨rfl, rfl⟩

/-- Claim C3 (amended): every dispatching widget *except* the Channel
Splitter raises its input-shape validation error synchronously, before the
background worker is created; the Channel Splitter always dispatches, and
both its non-3D/4D rejection and its 2-element frame-range requirement are
raised inside the dispatched worker (still before any result is yielded). -/
theorem shape_validation_dispatch_phases :
    (∀ (img : NDImage) (so : StackOrder) (mf : Bool) (mk : Nat) (bs pc : Bool)
        (cm : CorrMethod) (df : Bool) (fr : List Nat),
      split_channels_widget img so mf mk bs pc cm df fr =
        Except.ok (split_channels_worker img so mf mk bs pc cm df fr)) ∧
    (∀ (img : NDImage) (so : StackOrder) (mf : Bool) (mk : Nat) (bs pc : Bool)
        (cm : CorrMethod) (df : Bool) (fr : List Nat),
      img.ndim ≠ 3 → img.ndim ≠ 4 →
      split_channels_worker img so mf mk bs pc cm df fr =
        Except.error "Input image should have 3 or 4 dimensions!") ∧
    (∀ (s : Img3D) (so : StackOrder) (mf : Bool) (mk : Nat) (bs pc : Bool)
        (cm : CorrMethod) (fr : List Nat),
      fr.length ≠ 2 →
      split_channels_worker (.d3 s) so mf mk bs pc cm true fr =
        Except.error "List of indexes should has 2 elements!") ∧
    (∀ (img : NDImage) (l s r : Nat) (n mip : Bool),
      img.ndim ≠ 3 → der_series_widget img l s r n mip =
        Except.error "The input image should have 3 dimensions!") ∧
    (∀ (img : NDImage) (ph : PhOrder) (cs cp : Bool),
      img.ndim ≠ 3 → split_sep_widget img ph cs cp =
        Except.error "The input image should have 3 dimensions!") ∧
    (∀ (optimize : Img2D → Img2D → AffineMap2D) (offset : NDImage)
        (ref : Img3D) (ur : Bool) (ic oc : Nat),
      offset.ndim ≠ 4 → dw_registration_widget optimize offset ref ur ic oc =
        Except.error "Incorrect input image shape!") ∧
    (∀ (eappFn : Img3D → Img3D → Img3D → List ℚ → ℚ → BImg2D → EappRes)
        (dd da aa : NDImage) (a d G : ℚ) (ot : FretOutput) (sn : Bool),
      ¬(dd.ndim = 3 ∧ da.ndim = 3 ∧ aa.ndim = 3) →
      e_app_widget eappFn dd da aa a d G ot sn =
        Except.error "Incorrect input image shape!") ∧
    (∀ (img : NDImage) (bg dl : ℚ) (mind mdia : Nat),
      img.ndim ≠ 3 → dot_mask_widget img bg dl mind mdia =
        Except.error "The input image should have 3 dimensions!") ∧
    (∀ (img : NDImage) (rois : LImg2D) (di : Nat) (th : ℚ) (ird : Bool)
        (m : DetMethod) (corr : ℚ) (opf dlf : Nat),
      img.ndim ≠ 3 → up_mask_widget img rois di th ird m corr opf dlf =
        Except.error "The input image should have 3 dimensions!") ∧
    (∀ (img : NDImage) (di : Nat) (mm : MaskingMode) (ut dt : ℚ) (opf : Nat),
      img.ndim ≠ 3 → mask_calc_widget img di mm ut dt opf =
        Except.error "The input image should have 3 dimensions!") := by
  refine ⟨?_, ?_, ?_, ?_, ?_, ?_, ?_, ?_, ?_, ?_⟩
  · intro img so mf mk bs pc cm df fr
    rfl
  · intro img so mf mk bs pc cm df fr h3 h4
    cases img with
    | d1 v => rfl
    | d2 g => rfl
    | d3 s => exact absurd rfl h3
    | d4 s => exact absurd rfl h4
  · intro s so mf mk bs pc cm fr h
    simp only [split_channels_worker, preprocess_channel, if_neg h, if_pos rfl]
    rfl
  · intro img l s r n mip h
    cases img with
    | d1 v => rfl
    | d2 g => rfl
    | d3 s => exact absurd rfl h
    | d4 s => rfl
  · intro img ph cs cp h
    cases img with
    | d1 v => rfl
    | d2 g => rfl
    | d3 s => exact absurd rfl h
    | d4 s => rfl
  · intro optimize offset ref ur ic oc h
    cases offset with
    | d1 v => rfl
    | d2 g => rfl
    | d3 s => rfl
    | d4 s => exact absurd rfl h
  · intro eappFn dd da aa a d G ot sn h
    cases dd with
    | d3 x =>
      cases da with
      | d3 y =>
        cases aa with
        | d3 z => exact absurd ⟨rfl, rfl, rfl⟩ h
        | d1 v => rfl
        | d2 g => rfl
        | d4 s => rfl
      | d1 v => rfl
      | d2 g => rfl
      | d4 s => rfl
    | d1 v => cases da <;> cases aa <;> rfl
    | d2 g => cases da <;> cases aa <;> rfl
    | d4 s => cases da <;> cases aa <;> rfl
  · intro img bg dl mind mdia h
    cases img with
    | d1 v => rfl
    | d2 g => rfl
    | d3 s => exact absurd rfl h
    | d4 s => rfl
  · intro img rois di th ird m corr opf dlf h
    cases img with
    | d1 v => rfl
    | d2 g => rfl
    | d3 s => exact absurd rfl h
    | d4 s => rfl
  · intro img di mm ut dt opf h
    cases img with
    | d1 v => rfl
    | d2 g => rfl
    | d3 s => exact absurd rfl h
    | d4 s => rfl

theorem shape_validation_dispatch_phases_w :
    split_channels_widget (.d2 exG) .CTXY false 2 false false .exp false [0, 10] =
      Except.ok (split_channels_worker (.d2 exG) .CTXY false 2 false false .exp
        false [0, 10]) ∧
    split_channels_worker (.d1 [0]) .TCXY true 2 true false .exp false [0, 10] =
      Except.error "Input image should have 3 or 4 dimensions!" ∧
    split_channels_worker (.d3 []) .TCXY false 2 false false .exp true [] =
      Except.error "List of indexes should has 2 elements!" ∧
    der_series_widget (.d2 exG) 1 1 1 true false =
      Except.error "The input image should have 3 dimensions!" ∧
    split_sep_widget (.d2 exG) .ph73 false false =
      Except.error "The input image should have 3 dimensions!" ∧
    dw_registration_widget (fun _ _ => ⟨id⟩) (.d2 exG) [] false 25 20 =
      Except.error "Incorrect input image shape!" ∧
    e_app_widget (fun _ _ _ _ _ _ => ⟨[], [], []⟩) (.d2 exG) (.d2 exG) (.d2 exG)
        (122 / 1000) (794 / 1000) (36 / 10) .Eapp true =
      Except.error "Incorrect input image shape!" ∧
    dot_mask_widget (.d2 exG) 75 25 2 5 =
      Except.error "The input image should have 3 dimensions!" ∧
    up_mask_widget (.d2 exG) exRoisOne 2 (1 / 4) true .otsu (1 / 10) 1 0 =
      Except.error "The input image should have 3 dimensions!" ∧
    mask_calc_widget (.d2 exG) 2 .up (1 / 5) (-(9 / 10)) 0 =
      Except.error "The input image should have 3 dimensions!" :=
  ⟨shape_validation_dispatch_phases.1 (.d2 exG) .CTXY false 2 false false .exp
      false [0, 10],
   shape_validation_dispatch_phases.2.1 (.d1 [0]) .TCXY true 2 true false .exp
      false [0, 10] (by decide) (by decide),
   shape_validation_dispatch_phases.2.2.1 [] .TCXY false 2 false false .exp []
      (by decide),
   shape_validation_dispatch_phases.2.2.2.1 (.d2 exG) 1 1 1 true false (by decide),
   shape_validation_dispatch_phases.2.2.2.2.1 (.d2 exG) .ph73 false false
      (by decide),
   shape_validation_dispatch_phases.2.2.2.2.2.1 (fun _ _ => ⟨id⟩) (.d2 exG) []
      false 25 20 (by decide),
   shape_validation_dispatch_phases.2.2.2.2.2.2.1 (fun _ _ _ _ _ _ => ⟨[], [], []⟩)
      (.d2 exG) (.d2 exG) (.d2 exG) (122 / 1000) (794 / 1000) (36 / 10) .Eapp true
      (by decide),
   shape_validation_dispatch_phases.2.2.2.2.2.2.2.1 (.d2 exG) 75 25 2 5
      (by decide),
   shape_validation_dispatch_phases.2.2.2.2.2.2.2.2.1 (.d2 exG) exRoisOne 2
      (1 / 4) true .otsu (1 / 10) 1 0 (by decide),
   shape_validation_dispatch_phases.2.2.2.2.2.2.2.2.2 (.d2 exG) 2 .up (1 / 5)
      (-(9 / 10)) 0 (by decide)⟩
